import Mathlib

/-!
# Verification of the MedPerf resource-acquisition cache and compatibility-test pipeline

This file gives a shallow embedding of the core subsystems of the medperf CLI:

* the compatibility-test parameter validator
  (`cli/medperf/commands/compatibility_test/validate_params.py`),
* the entity-resource download utilities
  (`cli/medperf/comms/entity_resources/utils.py`),
* the resource cache operations
  (`cli/medperf/comms/entity_resources/resources.py`),
* the public direct-download source
  (`cli/medperf/comms/cube_assets/sources/public.py`),
* the cache-check phase of the compatibility-test pipeline
  (`cli/medperf/commands/compatibility_test/run.py`).

The filesystem is modelled as a map from structured paths to objects; the
network is modelled by per-source fetch oracles; hashing is modelled as an
ideal (collision-free) digest, represented by the hashed bytes themselves.
Functions from `medperf/utils.py` and `medperf/entities/report.py` are not
part of the sources under study and are modelled from the specification;
each such definition is marked `Modelled from the spec:` in its docstring.
-/

namespace Medperf

/-- A byte string (file contents / tarball contents). -/
abbrev Content := List Nat

/-- An ideal content digest.  `medperf.utils.get_file_hash` computes a SHA
digest of a file; the model identifies the digest with the digested bytes,
which makes the digest deterministic and collision-free. -/
abbrev Hash := Content

/-- One component of a filesystem path: a plain name, a hash-derived name
(content-addressed storage entries), or a generated temporary name. -/
inductive PathC where
  | str (x : String)
  | hsh (x : Hash)
  | num (x : Nat)
  deriving DecidableEq, Repr

/-- A filesystem path, as a list of components (mirrors `os.path.join`). -/
abbrev FsPath := List PathC

/-- The temporary path returned by the k-th call of
`medperf.utils.generate_tmp_path` (modelled from the spec: a fresh location
under the temporary storage root, distinct from all permanent paths). -/
def tmpPath (k : Nat) : FsPath := [PathC.num k]

/-- A path is permanent when it does not lie under the temporary storage
root, i.e. its first component is not a generated temporary name. -/
def permanentPath (p : FsPath) : Prop := ∀ k : Nat, p.take 1 ≠ tmpPath k

/-- An object stored in the filesystem: a regular file, a directory obtained
by extracting a tarball (tagged with the tarball's bytes), or a yaml
side-car file recording a cached tarball hash
(`{"additional_files_cached_hash": h}`). -/
inductive Obj where
  | file (c : Content)
  | dir (tar : Content)
  | meta (cached : Hash)
  deriving DecidableEq, Repr

/-- The digest of a stored object.  For a regular file this is the digest of
its bytes; for a directory extracted from a tarball it is the digest of the
originating tarball (the hash that governs the directory's validity). -/
def Obj.hashOf : Obj → Hash
  | .file c => c
  | .dir tar => tar
  | .meta cached => cached

/-- The error taxonomy of the subsystem (`medperf.exceptions`). -/
inductive MErr where
  | invalidArgument (msg : String)
  | integrityError (calculated expected : Hash)
  | commRetrievalError
  | authenticationError
  deriving DecidableEq, Repr

/-! ## Compatibility-test parameter validator

Embeds `cli/medperf/commands/compatibility_test/validate_params.py`.
The python validator only ever inspects the truthiness of its inputs;
the model keeps the inputs as optional values and tests truthiness the
way python does (absent or empty string / zero uid is falsy). -/

/-- The inputs of `CompatibilityTestParamsValidator.__init__` (the
constructor body is not among the sources; it stores the arguments
verbatim, as used by the validation methods). -/
structure TestParams where
  benchmark_uid : Option Nat
  data_prep : Option String
  model : Option String
  evaluator : Option String
  data_path : Option String
  labels_path : Option String
  demo_dataset_url : Option String
  demo_dataset_hash : Option String
  data_uid : Option String
  deriving DecidableEq, Repr

/-- Python truthiness of an optional string argument. -/
def strTruthy : Option String → Bool
  | none => false
  | some s => s ≠ ""

/-- Python truthiness of an optional integer argument. -/
def natTruthy : Option Nat → Bool
  | none => false
  | some n => n ≠ 0

/-- The data-source branch recorded by `__validate_data_source` via the
`from_benchmark` / `from_prepared` / `from_path` / `from_demo` flags. -/
inductive DataSrc where
  | benchmark
  | prepared
  | path
  | demo
  deriving DecidableEq, Repr

/-- `CompatibilityTestParamsValidator.__validate_cubes`. -/
def validate_cubes (p : TestParams) : Except MErr Unit :=
  if ¬ strTruthy p.model ∧ ¬ natTruthy p.benchmark_uid then
    .error (.invalidArgument "A model mlcube or a benchmark should at least be specified")
  else if ¬ strTruthy p.evaluator ∧ ¬ natTruthy p.benchmark_uid then
    .error (.invalidArgument "A metrics mlcube or a benchmark should at least be specified")
  else
    .ok ()

/-- `CompatibilityTestParamsValidator.__raise_redundant_data_source`. -/
def redundant_data_source_error : MErr :=
  .invalidArgument
    "Make sure you pass only one data source: either a prepared dataset, a data path and labels path, or a demo dataset url"

/-- `CompatibilityTestParamsValidator.__validate_prepared_data_source`. -/
def validate_prepared_data_source (p : TestParams) : Except MErr Unit :=
  if strTruthy p.data_path ∨ strTruthy p.labels_path ∨ strTruthy p.demo_dataset_url
      ∨ strTruthy p.demo_dataset_hash then
    .error redundant_data_source_error
  else if strTruthy p.data_prep then
    .error (.invalidArgument "A data preparation cube is not needed when specifying a prepared dataset")
  else
    .ok ()

/-- `CompatibilityTestParamsValidator.__validate_data_path_source`.
Note the source tests `not self.data_prep or not self.benchmark_uid`. -/
def validate_data_path_source (p : TestParams) : Except MErr Unit :=
  if ¬ strTruthy p.labels_path then
    .error (.invalidArgument "Labels path should be specified when providing data path")
  else if strTruthy p.demo_dataset_url ∨ strTruthy p.demo_dataset_hash
      ∨ strTruthy p.data_uid then
    .error redundant_data_source_error
  else if ¬ strTruthy p.data_prep ∨ ¬ natTruthy p.benchmark_uid then
    .error (.invalidArgument "A data preparation cube should be passed when specifying raw data input")
  else
    .ok ()

/-- `CompatibilityTestParamsValidator.__validate_demo_data_source`.
Note the source tests `not self.data_prep or not self.benchmark_uid`. -/
def validate_demo_data_source (p : TestParams) : Except MErr Unit :=
  if strTruthy p.data_path ∨ strTruthy p.labels_path ∨ strTruthy p.data_uid then
    .error redundant_data_source_error
  else if ¬ strTruthy p.data_prep ∨ ¬ natTruthy p.benchmark_uid then
    .error (.invalidArgument "A data preparation cube should be passed when specifying raw data input")
  else
    .ok ()

/-- `CompatibilityTestParamsValidator.__validate_data_source`; returns the
branch flag set by the taken branch. -/
def validate_data_source (p : TestParams) : Except MErr DataSrc :=
  if ¬ (strTruthy p.data_path ∨ strTruthy p.demo_dataset_url ∨ strTruthy p.data_uid) then
    if ¬ natTruthy p.benchmark_uid then
      .error (.invalidArgument
        "A data source should at least be specified, either by providing a prepared data uid, a demo dataset url, data path, or a benchmark")
    else
      .ok .benchmark
  else if strTruthy p.data_uid then
    match validate_prepared_data_source p with
    | .error e => .error e
    | .ok _ => .ok .prepared
  else if strTruthy p.data_path then
    match validate_data_path_source p with
    | .error e => .error e
    | .ok _ => .ok .path
  else
    match validate_demo_data_source p with
    | .error e => .error e
    | .ok _ => .ok .demo

/-- `CompatibilityTestParamsValidator.__validate_redundant_benchmark`. -/
def validate_redundant_benchmark (p : TestParams) (src : DataSrc) : Except MErr Unit :=
  if natTruthy p.benchmark_uid then
    if src ≠ .benchmark ∧ strTruthy p.model ∧ strTruthy p.evaluator
        ∧ (src = .prepared ∨ strTruthy p.data_prep) then
      .error (.invalidArgument "The provided benchmark will not be used")
    else
      .ok ()
  else
    .ok ()

/-- `CompatibilityTestParamsValidator.validate`. -/
def validate (p : TestParams) : Except MErr Unit :=
  match validate_cubes p with
  | .error e => .error e
  | .ok _ =>
    match validate_data_source p with
    | .error e => .error e
    | .ok src => validate_redundant_benchmark p src

/-- Raw-path inputs with a data-preparation cube supplied directly and no
benchmark (the model and evaluator cubes are given explicitly, as required
without a benchmark): the claim says validation must succeed. -/
def rawPathDirectPrep : TestParams :=
  { benchmark_uid := none
    data_prep := some "prep_cube"
    model := some "model_cube"
    evaluator := some "eval_cube"
    data_path := some "data"
    labels_path := some "labels"
    demo_dataset_url := none
    demo_dataset_hash := none
    data_uid := none }

/-- Raw-path inputs with the preparation cube supplied only via a benchmark
reference (model and evaluator left to the benchmark): the claim says
validation must succeed. -/
def rawPathBenchmarkPrep : TestParams :=
  { benchmark_uid := some 1
    data_prep := none
    model := none
    evaluator := none
    data_path := some "data"
    labels_path := some "labels"
    demo_dataset_url := none
    demo_dataset_hash := none
    data_uid := none }

/-! ## Filesystem / network state

The state of one client process: a temporary-name counter (for
`generate_tmp_path`), the filesystem contents, the symlink table (used by
`get_cube_image`), and a log of the network accesses performed, most recent
first.  Every `source.download(...)` call appends the requested resource to
the log, whether or not it succeeds; "no download / no network access" is
the statement that the log is unchanged. -/
structure St where
  cnt : Nat
  files : FsPath → Option Obj
  links : FsPath → Option FsPath
  log : List String

/-- Write (or delete, with `none`) the object at a path. -/
def St.set (st : St) (p : FsPath) (v : Option Obj) : St :=
  { st with files := fun q => if q = p then v else st.files q }

/-- Write (or delete) a symlink. -/
def St.setLink (st : St) (p : FsPath) (v : Option FsPath) : St :=
  { st with links := fun q => if q = p then v else st.links q }

/-- `medperf.utils.remove_path` (modelled from the spec: deletes the file or
folder at the given path). -/
def remove_path (st : St) (p : FsPath) : St := st.set p none

/-- `medperf.utils.get_file_hash` at a path (modelled from the spec: streams
the file and returns its digest; the ideal digest of an object is
`Obj.hashOf`; only used on existing paths). -/
def get_file_hash (st : St) (p : FsPath) : Hash :=
  match st.files p with
  | some o => o.hashOf
  | none => []

/-- `medperf.utils.verify_hash` (modelled from the spec §4.1: no constraint
when the expected hash is empty/absent; `IntegrityError` naming both the
calculated and the expected digest on mismatch). -/
def verify_hash (calculated : Hash) (expected : Option Hash) : Except MErr Unit :=
  match expected with
  | none => .ok ()
  | some e => if calculated = e then .ok () else .error (.integrityError calculated e)

/-- `medperf.utils.untar` applied to the tarball at `p` (modelled from the
spec: extracts the tarball into its containing folder and removes the
tarball file; the extracted tree is the `Obj.dir` tagged with the tarball's
bytes).  `none` when there is no regular file at `p` (the python function
would fail); this branch is unreachable in the flows below. -/
def untar_at (st : St) (p : FsPath) : Option St :=
  match st.files p with
  | some (.file c) => some ((st.set p none).set p.dropLast (some (.dir c)))
  | _ => none

/-- One entry of `supported_sources` (the `sources` package of
`entity_resources` is not among the sources under study; modelled from the
spec §4.2: a recognizer `validate_resource`, an `authenticate` step that can
fail, and a `download` that either delivers the resource's bytes or fails
with a retrieval error; the delivered bytes are a function of the resource
identifier). -/
structure Source where
  validate_resource : String → Option String
  auth_ok : Bool
  fetch : String → Option Content

/-- `__parse_resource` of `entity_resources/utils.py`: scan the registered
sources in order, first source whose recognizer returns a truthy identifier
wins; `InvalidArgumentError` when none accepts. -/
def parse_resource (sources : List Source) (resource : String) :
    Except MErr (Source × String) :=
  match sources with
  | [] =>
    .error (.invalidArgument
      ("Invalid resource input: " ++ resource ++ ". A Resource must be a url or in the following format: '<source_prefix>:<resource_identifier>'. Run 'medperf mlcube submit --help' for more details."))
  | s :: rest =>
    match s.validate_resource resource with
    | some rid => if rid = "" then parse_resource rest resource else .ok (s, rid)
    | none => parse_resource rest resource

/-- A source accepts a resource when its recognizer returns a truthy
(non-empty) identifier. -/
def accepts (s : Source) (resource : String) : Prop :=
  ∃ rid, s.validate_resource resource = some rid ∧ rid ≠ ""

/-- `tmp_download_resource` of `entity_resources/utils.py`: generate a fresh
temporary path, parse the resource, authenticate the source, download into
the temporary path.  Returns the temporary path. -/
def tmp_download_resource (sources : List Source) (resource : String) (st : St) :
    Except MErr FsPath × St :=
  let k := st.cnt
  let st1 : St := { st with cnt := k + 1 }
  match parse_resource sources resource with
  | .error e => (.error e, st1)
  | .ok (s, rid) =>
    if s.auth_ok then
      -- the network is contacted now; log the access
      let st2 : St := { st1 with log := resource :: st1.log }
      match s.fetch rid with
      | none => (.error .commRetrievalError, st2)
      | some c => (.ok (tmpPath k), st2.set (tmpPath k) (some (.file c)))
    else (.error .authenticationError, st1)

/-- `verify_or_get_hash` of `entity_resources/utils.py`: compute the hash of
the asset at `p`, check it against the expected hash if one is given, and
return the calculated hash (only returns if the hashes match). -/
def verify_or_get_hash (st : St) (p : FsPath) (expected : Option Hash) :
    Except MErr Hash :=
  match verify_hash (get_file_hash st p) expected with
  | .ok _ => .ok (get_file_hash st p)
  | .error e => .error e

/-- `to_permanent_path` of `entity_resources/utils.py`: create the parent
folders (implicit here) and rename the temporary path onto the output
path. -/
def to_permanent_path (st : St) (tmp_output_path output_path : FsPath) : St :=
  let v := st.files tmp_output_path
  (st.set tmp_output_path none).set output_path v

/-- `download_resource` of `entity_resources/utils.py`: download to a fresh
temporary path, verify (or compute) the hash there, and only then rename to
the output path. -/
def download_resource (sources : List Source) (resource : String)
    (output_path : FsPath) (expected : Option Hash) (st : St) :
    Except MErr Hash × St :=
  match tmp_download_resource sources resource st with
  | (.error e, st1) => (.error e, st1)
  | (.ok tmpP, st1) =>
    match verify_or_get_hash st1 tmpP expected with
    | .error e => (.error e, st1)
    | .ok calculated => (.ok calculated, to_permanent_path st1 tmpP output_path)

/-! ## Storage layout (`medperf/config.py`) -/

def cube_filename : String := "mlcube.yaml"
def params_filename : String := "parameters.yaml"
def workspace_path : String := "workspace"
def additional_path : String := "workspace/additional_files"
def tarball_filename : String := "tmp.tar.gz"
def image_path : String := "workspace/.image"

/-- Modelled from the spec: the shared content-addressed images root
(`config.images_folder`; the concrete location is configuration, not among
the sources under study). -/
def images_folder : FsPath := [PathC.str ".images"]

/-- Modelled from the spec: the shared demo-datasets root
(`config.demo_datasets_folder`). -/
def demo_datasets_folder : FsPath := [PathC.str "demo"]

/-- Modelled from the spec: the name of the per-cube side-car metadata file
(`config.mlcube_cache_file`). -/
def mlcube_cache_file : String := "mlcube-cache.yaml"

/-- `os.path.join(cube_path, config.cube_filename)`. -/
def cubeManifestPath (cube_path : FsPath) : FsPath := cube_path ++ [PathC.str cube_filename]

/-- `os.path.join(cube_path, config.workspace_path, config.params_filename)`. -/
def cubeParamsPath (cube_path : FsPath) : FsPath :=
  cube_path ++ [PathC.str workspace_path, PathC.str params_filename]

/-- `os.path.join(cube_path, config.additional_path)`. -/
def additionalFilesFolder (cube_path : FsPath) : FsPath :=
  cube_path ++ [PathC.str additional_path]

/-- `os.path.join(cube_path, config.mlcube_cache_file)`. -/
def mlcubeCachePath (cube_path : FsPath) : FsPath :=
  cube_path ++ [PathC.str mlcube_cache_file]

/-- `os.path.join(config.images_folder, hash_value)`. -/
def imageStoragePath (hv : Hash) : FsPath := images_folder ++ [PathC.hsh hv]

/-- `os.path.join(cube_path, config.image_path, image_name)`. -/
def imageCubeFile (cube_path : FsPath) (image_name : String) : FsPath :=
  cube_path ++ [PathC.str image_path, PathC.str image_name]

/-- `os.path.join(config.demo_datasets_folder, hash_value)`. -/
def demoDatasetFolder (hv : Hash) : FsPath := demo_datasets_folder ++ [PathC.hsh hv]

/-! ## Cache operations (`entity_resources/resources.py`) -/

/-- `_should_get_cube`: an existing file together with a supplied expected
hash is verified in place (`verify_or_get_hash` raises on mismatch; its
result, a digest string, is always truthy, so a successful verification
means the file is up to date and no download is needed). -/
def _should_get_cube (st : St) (output_path : FsPath) (expected : Option Hash) :
    Except MErr Bool :=
  if (st.files output_path).isSome ∧ expected.isSome then
    match verify_or_get_hash st output_path expected with
    | .error e => .error e
    | .ok _ => .ok false
  else
    .ok true

/-- `_should_get_cube_params` (same logic, per the source). -/
def _should_get_cube_params (st : St) (output_path : FsPath) (expected : Option Hash) :
    Except MErr Bool :=
  _should_get_cube st output_path expected

/-- `get_cube`: download and write an `mlcube.yaml` file, checking its
integrity when an expected hash is supplied and skipping the download when
the cached copy already verifies. -/
def get_cube (sources : List Source) (url : String) (cube_path : FsPath)
    (expected : Option Hash) (st : St) : Except MErr (FsPath × Hash) × St :=
  let output_path := cubeManifestPath cube_path
  match _should_get_cube st output_path expected with
  | .error e => (.error e, st)
  | .ok false => (.ok (output_path, expected.getD []), st)
  | .ok true =>
    let st1 := if (st.files output_path).isSome then remove_path st output_path else st
    match download_resource sources url output_path expected st1 with
    | (.error e, st2) => (.error e, st2)
    | (.ok hash_value, st2) => (.ok (output_path, hash_value), st2)

/-- `get_cube_params`: same algorithm as `get_cube` with the parameters-file
destination. -/
def get_cube_params (sources : List Source) (url : String) (cube_path : FsPath)
    (expected : Option Hash) (st : St) : Except MErr (FsPath × Hash) × St :=
  let output_path := cubeParamsPath cube_path
  match _should_get_cube_params st output_path expected with
  | .error e => (.error e, st)
  | .ok false => (.ok (output_path, expected.getD []), st)
  | .ok true =>
    let st1 := if (st.files output_path).isSome then remove_path st output_path else st
    match download_resource sources url output_path expected st1 with
    | (.error e, st2) => (.error e, st2)
    | (.ok hash_value, st2) => (.ok (output_path, hash_value), st2)

/-- `get_cube_image`: the image is stored once under the shared images root,
keyed by hash, and symlinked into the cube's workspace.  `image_name` stands
for `get_cube_image_name(cube_path)` (a lookup inside the cube's manifest,
not part of this subsystem). -/
def get_cube_image (sources : List Source) (url : String) (cube_path : FsPath)
    (image_name : String) (hash_value : Option Hash) (st : St) :
    Except MErr (FsPath × Hash) × St :=
  let image_cube_file := imageCubeFile cube_path image_name
  -- remove an existing (possibly broken) link
  let st0 := if (st.links image_cube_file).isSome
             then st.setLink image_cube_file none else st
  match hash_value with
  | none =>
    -- no hash provided: download to a temporary path first
    let k := st0.cnt
    let st1 : St := { st0 with cnt := k + 1 }
    match download_resource sources url (tmpPath k) none st1 with
    | (.error e, st2) => (.error e, st2)
    | (.ok hv, st2) =>
      let img_storage := imageStoragePath hv
      let st3 := to_permanent_path st2 (tmpPath k) img_storage  -- shutil.move
      (.ok (image_cube_file, hv), st3.setLink image_cube_file (some img_storage))
  | some hv =>
    let img_storage := imageStoragePath hv
    if (st0.files img_storage).isSome then
      (.ok (image_cube_file, hv), st0.setLink image_cube_file (some img_storage))
    else
      match download_resource sources url img_storage (some hv) st0 with
      | (.error e, st2) => (.error e, st2)
      | (.ok _, st2) =>
        (.ok (image_cube_file, hv), st2.setLink image_cube_file (some img_storage))

/-- `_should_get_cube_additional`: the extracted folder is up to date when
it exists, an expected tarball hash is supplied, and the side-car metadata
file records exactly that hash. -/
def _should_get_cube_additional (st : St) (additional_files_folder : FsPath)
    (expected : Option Hash) (mlcube_local_cache_metadata : FsPath) : Bool :=
  let cached : Option Hash :=
    match st.files mlcube_local_cache_metadata with
    | some (.meta h1) => some h1
    | _ => none
  if (st.files additional_files_folder).isSome ∧ expected.isSome then
    decide (cached ≠ expected)
  else
    true

/-- `get_cube_additional`: download the additional-files tarball into a
scratch folder, extract it there, atomically swap the extracted folder into
the cube's workspace, then record the governing tarball hash in the side-car
metadata file. -/
def get_cube_additional (sources : List Source) (url : String) (cube_path : FsPath)
    (expected_tarball_hash : Option Hash) (st : St) : Except MErr Hash × St :=
  let additional_files_folder := additionalFilesFolder cube_path
  let mlcube_cache_filepath := mlcubeCachePath cube_path
  if _should_get_cube_additional st additional_files_folder expected_tarball_hash
      mlcube_cache_filepath then
    let k := st.cnt
    let st1 : St := { st with cnt := k + 1 }
    let output_tarball_path := tmpPath k ++ [PathC.str tarball_filename]
    match download_resource sources url output_tarball_path expected_tarball_hash st1 with
    | (.error e, st2) => (.error e, st2)
    | (.ok tarball_hash, st2) =>
      match untar_at st2 output_tarball_path with
      | none => (.error .commRetrievalError, st2)  -- unreachable: the tarball was just written
      | some st3 =>
        let st4 := if (st3.files additional_files_folder).isSome
                   then remove_path st3 additional_files_folder else st3
        let st5 := to_permanent_path st4 (tmpPath k) additional_files_folder  -- os.rename
        let st6 := st5.set mlcube_cache_filepath (some (.meta tarball_hash))
        (.ok tarball_hash, st6)
  else
    (.ok (expected_tarball_hash.getD []), st)

/-- The download-and-extract part of `get_benchmark_demo_dataset` (the code
after the cached-folder early return). -/
def get_benchmark_demo_dataset_fetch (sources : List Source) (url : String)
    (expected : Option Hash) (st : St) : Except MErr (FsPath × Hash) × St :=
  let k := st.cnt
  let st1 : St := { st with cnt := k + 1 }
  let output_tarball_path := tmpPath k ++ [PathC.str tarball_filename]
  match download_resource sources url output_tarball_path expected st1 with
  | (.error e, st2) => (.error e, st2)
  | (.ok hash_value, st2) =>
    match untar_at st2 output_tarball_path with
    | none => (.error .commRetrievalError, st2)  -- unreachable: the tarball was just written
    | some st3 =>
      let demo_dataset_folder := demoDatasetFolder hash_value
      let st4 := if (st3.files demo_dataset_folder).isSome
                 then remove_path st3 demo_dataset_folder else st3
      let st5 := to_permanent_path st4 (tmpPath k) demo_dataset_folder  -- os.rename
      (.ok (demo_dataset_folder, hash_value), st5)

/-- `get_benchmark_demo_dataset`: when an expected hash is supplied and the
hash-named folder already exists, return it immediately without network
access; otherwise download and extract the tarball in temporary storage and
rename the extracted folder into the shared demo storage. -/
def get_benchmark_demo_dataset (sources : List Source) (url : String)
    (expected : Option Hash) (st : St) : Except MErr (FsPath × Hash) × St :=
  match expected with
  | some e =>
    if (st.files (demoDatasetFolder e)).isSome then
      (.ok (demoDatasetFolder e, e), st)
    else
      get_benchmark_demo_dataset_fetch sources url (some e) st
  | none => get_benchmark_demo_dataset_fetch sources url none st

/-! ## The public direct-download source
(`cli/medperf/comms/cube_assets/sources/public.py`) -/

/-- `config.ddl_stream_chunk_size` (10MB). -/
def ddl_stream_chunk_size : Nat := 10 * 1024 * 1024

/-- `requests.Response.iter_content(chunk_size)`: the body split into
successive chunks of the given size (the final chunk may be shorter).  The
chunk size used by the caller is positive; `max n 1` guards the degenerate
zero case for totality. -/
def chunks (n : Nat) (l : Content) : List Content :=
  if l.isEmpty then []
  else l.take (max n 1) :: chunks n (l.drop (max n 1))
termination_by l.length
decreasing_by
  simp only [List.isEmpty_eq_true] at *
  have h1 : 1 ≤ max n 1 := le_max_right n 1
  have h2 : 0 < l.length := List.length_pos.mpr (by assumption)
  simp only [List.length_drop]
  omega

/-- An HTTP response as observed by `PublicSource.download`: a status code
and the streamed body. -/
structure HttpResponse where
  status_code : Nat
  body : Content

/-- The write loop `for chunk in res.iter_content(...): f.write(chunk)`:
each chunk is appended to the (initially empty) file at `output_path`. -/
def write_chunks (output_path : FsPath) : List Content → St → St
  | [], st => st
  | chunk :: rest, st =>
    let cur : Content :=
      match st.files output_path with
      | some (.file c) => c
      | _ => []
    write_chunks output_path rest (st.set output_path (some (.file (cur ++ chunk))))

/-- `PublicSource.download`: on a non-200 status, log the response error and
raise `CommunicationRetrievalError` before opening the destination file;
on 200, open the destination for writing (creating an empty file) and
stream the body into it chunk by chunk. -/
def PublicSource_download (res : HttpResponse) (output_path : FsPath) (st : St) :
    Except MErr Unit × St :=
  if res.status_code ≠ 200 then
    (.error .commRetrievalError, st)
  else
    let st1 := st.set output_path (some (.file []))
    (.ok (), write_chunks output_path (chunks ddl_stream_chunk_size res.body) st1)

/-! ## The compatibility-test pipeline cache phase
(`cli/medperf/commands/compatibility_test/run.py`) -/

/-- The result payload of one test execution (a map of string keys to
values, per the report format). -/
abbrev TestResults := List (String × String)

/-- Modelled from the spec: `TestReport.generated_uid`
(`medperf/entities/report.py` is not among the sources under study).  Per
the spec, the report's identity "is derived deterministically from the
resolved benchmark id, model id, and dataset hash"; the digest is modelled
as an injective encoding of that triple. -/
def generated_uid (benchmark_uid model dataset_hash : String) : List String :=
  [benchmark_uid, model, dataset_hash]

/-- Modelled from the spec: the persisted-report store.  `TestReport.get`
looks a report up by generated uid and raises `InvalidArgumentError` when
none is stored; `TestReport.write` persists a report keyed by its generated
uid.  Represented as the partial map from uids to stored results. -/
abbrev ReportStore := List String → Option TestResults

/-- `CompatibilityTestExecution.cached_results`: `None` when `no_cache` is
set; otherwise the stored results of the report with the current generated
uid, or `None` when `TestReport.get` raises. -/
def cached_results (no_cache : Bool) (store : ReportStore) (uid : List String) :
    Option TestResults :=
  if no_cache then none else store uid

/-- The cache-check tail of `CompatibilityTestExecution.run`:
`results = test_exec.cached_results()`; when `None`, invoke the execution
sandbox and write the new report.  Returns the results, whether the sandbox
was invoked, and the resulting report store. -/
def run_cache_phase (no_cache : Bool) (store : ReportStore) (uid : List String)
    (sandbox_results : TestResults) : TestResults × Bool × ReportStore :=
  match cached_results no_cache store uid with
  | some results => (results, false, store)
  | none =>
    (sandbox_results, true,
      fun u => if u = uid then some sandbox_results else store u)

/-- The state after `tmp_download_resource` has generated a temporary path,
logged the network access and written the fetched bytes to the temporary
path (used to state evaluation lemmas). -/
def staged (st : St) (resource : String) (c : Content) : St :=
  ({ st with cnt := st.cnt + 1, log := resource :: st.log } : St).set
    (tmpPath st.cnt) (some (.file c))

/-! ## Concrete fixtures used by the witness theorems -/

/-- The empty client state. -/
def stEmpty : St := ⟨0, fun _ => none, fun _ => none, []⟩

/-- A source that recognizes nothing. -/
def srcReject : Source := ⟨fun _ => none, true, fun _ => some [1]⟩

/-- A source that recognizes every descriptor and delivers the bytes `[7, 7]`. -/
def srcEcho : Source := ⟨fun r => some r, true, fun _ => some [7, 7]⟩

/-- A source that recognizes every descriptor but fails retrieval. -/
def srcFail : Source := ⟨fun r => some r, true, fun _ => none⟩

/-- A state holding stale manifest and parameter files for the cube at the
root path. -/
def stStale : St :=
  ⟨0, fun p => if p = cubeManifestPath [] ∨ p = cubeParamsPath [] then
      some (.file [9]) else none,
    fun _ => none, []⟩

/-- A state whose cube side-car metadata records the hash `[9]` and whose
every other path holds a file with bytes `[9]` (a fully populated cache). -/
def stFull : St :=
  ⟨0, fun p => if p = mlcubeCachePath [] then some (.meta [9]) else some (.file [9]),
    fun _ => none, []⟩

/-! ## Basic path lemmas -/

@[simp] theorem St.set_files_same (st : St) (p : FsPath) (v : Option Obj) :
    (st.set p v).files p = v := by
  simp [St.set]

theorem St.set_files_ne (st : St) (p q : FsPath) (v : Option Obj) (h : q ≠ p) :
    (st.set p v).files q = st.files q := by
  simp [St.set, h]

@[simp] theorem St.set_cnt (st : St) (p : FsPath) (v : Option Obj) :
    (st.set p v).cnt = st.cnt := rfl

@[simp] theorem St.set_log (st : St) (p : FsPath) (v : Option Obj) :
    (st.set p v).log = st.log := rfl

@[simp] theorem St.set_links (st : St) (p : FsPath) (v : Option Obj) :
    (st.set p v).links = st.links := rfl

@[simp] theorem St.setLink_files (st : St) (p : FsPath) (v : Option FsPath) :
    (st.setLink p v).files = st.files := rfl

@[simp] theorem St.setLink_log (st : St) (p : FsPath) (v : Option FsPath) :
    (st.setLink p v).log = st.log := rfl

@[simp] theorem St.setLink_cnt (st : St) (p : FsPath) (v : Option FsPath) :
    (st.setLink p v).cnt = st.cnt := rfl

theorem tmpPath_inj {a b : Nat} (h : tmpPath a = tmpPath b) : a = b := by
  simpa [tmpPath] using h

theorem not_permanent_tmpPath (k : Nat) : ¬ permanentPath (tmpPath k) := by
  intro h
  exact h k rfl

theorem not_permanent_tmpPath_append (k : Nat) (l : FsPath) :
    ¬ permanentPath (tmpPath k ++ l) := by
  intro h
  exact h k rfl

theorem permanent_ne_tmpPath {p : FsPath} (h : permanentPath p) (k : Nat) :
    p ≠ tmpPath k := by
  intro hEq
  exact not_permanent_tmpPath k (hEq ▸ h)

theorem permanent_ne_of_not_permanent {p q : FsPath} (hp : permanentPath p)
    (hq : ¬ permanentPath q) : p ≠ q := by
  intro hEq
  exact hq (hEq ▸ hp)

theorem tmpPath_ne_append (k j : Nat) (c : PathC) (l : FsPath) :
    tmpPath k ++ (c :: l) ≠ tmpPath j := by
  simp [tmpPath]

/-! ## Behaviour of `tmp_download_resource` and `download_resource` -/

theorem tmp_download_resource_spec (sources : List Source) (resource : String)
    (st : St) (res : Except MErr FsPath) (st1 : St)
    (h : tmp_download_resource sources resource st = (res, st1)) :
    st1.cnt = st.cnt + 1
    ∧ (st1.log = st.log ∨ st1.log = resource :: st.log)
    ∧ st1.links = st.links
    ∧ (∀ p, p ≠ tmpPath st.cnt → st1.files p = st.files p)
    ∧ (∀ tp, res = .ok tp → tp = tmpPath st.cnt
        ∧ (∃ c, st1.files (tmpPath st.cnt) = some (.file c))
        ∧ st1.log = resource :: st.log) := by
  unfold tmp_download_resource at h
  cases hp : parse_resource sources resource with
  | error e =>
    simp only [hp] at h
    obtain ⟨rfl, rfl⟩ := Prod.mk.injEq .. ▸ h
    refine ⟨rfl, Or.inl rfl, rfl, fun p _ => rfl, fun tp htp => Except.noConfusion htp⟩
  | ok srid =>
    obtain ⟨s, rid⟩ := srid
    simp only [hp] at h
    by_cases ha : s.auth_ok
    · simp only [ha, if_true] at h
      cases hf : s.fetch rid with
      | none =>
        simp only [hf] at h
        obtain ⟨rfl, rfl⟩ := Prod.mk.injEq .. ▸ h
        refine ⟨rfl, Or.inr rfl, rfl, fun p _ => rfl, fun tp htp => Except.noConfusion htp⟩
      | some c =>
        simp only [hf] at h
        obtain ⟨rfl, rfl⟩ := Prod.mk.injEq .. ▸ h
        refine ⟨rfl, Or.inr rfl, rfl, fun p hp1 => ?_, fun tp htp => ?_⟩
        · exact St.set_files_ne _ _ _ _ hp1
        · obtain rfl : tmpPath st.cnt = tp := by injection htp
          exact ⟨rfl, ⟨c, St.set_files_same ..⟩, rfl⟩
    · simp only [ha, if_false] at h
      obtain ⟨rfl, rfl⟩ := Prod.mk.injEq .. ▸ h
      refine ⟨rfl, Or.inl rfl, rfl, fun p _ => rfl, fun tp htp => Except.noConfusion htp⟩

theorem download_resource_spec (sources : List Source) (resource : String)
    (output_path : FsPath) (expected : Option Hash) (st : St)
    (res : Except MErr Hash) (st2 : St)
    (h : download_resource sources resource output_path expected st = (res, st2)) :
    (st2.log = st.log ∨ st2.log = resource :: st.log)
    ∧ (∀ p, p ≠ output_path → p ≠ tmpPath st.cnt → st2.files p = st.files p)
    ∧ st2.links = st.links
    ∧ (∀ hv, res = .ok hv →
        st2.files output_path = some (.file hv)
        ∧ expected.getD hv = hv
        ∧ st2.log = resource :: st.log
        ∧ (output_path ≠ tmpPath st.cnt → st2.files (tmpPath st.cnt) = none))
    ∧ (∀ e, res = .error e → output_path ≠ tmpPath st.cnt →
        st2.files output_path = st.files output_path) := by
  unfold download_resource at h
  cases ht : tmp_download_resource sources resource st with
  | mk tres tst =>
    obtain ⟨_, hlog, hlinks, hframe, hok⟩ :=
      tmp_download_resource_spec sources resource st tres tst ht
    rw [ht] at h
    cases tres with
    | error e =>
      simp only at h
      obtain ⟨rfl, rfl⟩ := Prod.mk.injEq .. ▸ h
      exact ⟨hlog, fun p _ hp2 => hframe p hp2, hlinks,
        fun hv hhv => Except.noConfusion hhv, fun e2 _ hne => hframe _ hne⟩
    | ok tmpP =>
      obtain ⟨rfl, ⟨c, hc⟩, hlog2⟩ := hok tmpP rfl
      have hhash : get_file_hash tst (tmpPath st.cnt) = c := by
        simp [get_file_hash, hc, Obj.hashOf]
      cases hexp : expected with
      | none =>
        simp only [verify_or_get_hash, verify_hash, hexp, hhash] at h
        obtain ⟨rfl, rfl⟩ := Prod.mk.injEq .. ▸ h
        refine ⟨Or.inr hlog2, fun p hp1 hp2 => ?_, hlinks, fun hv hhv => ?_, fun e2 he2 => Except.noConfusion he2⟩
        · show (_ : St).files p = _
          unfold to_permanent_path
          rw [St.set_files_ne _ _ _ _ hp1, St.set_files_ne _ _ _ _ hp2]
          exact hframe p hp2
        · obtain rfl : c = hv := by injection hhv
          refine ⟨?_, rfl, hlog2, fun hne => ?_⟩
          · show (_ : St).files output_path = _
            unfold to_permanent_path
            rw [St.set_files_same, hc]
          · show (_ : St).files (tmpPath st.cnt) = none
            unfold to_permanent_path
            rw [St.set_files_ne _ _ _ _ (Ne.symm hne), St.set_files_same]
      | some e =>
        by_cases hce : c = e
        · subst hce
          simp only [verify_or_get_hash, verify_hash, hexp, hhash, if_pos rfl] at h
          obtain ⟨rfl, rfl⟩ := Prod.mk.injEq .. ▸ h
          refine ⟨Or.inr hlog2, fun p hp1 hp2 => ?_, hlinks, fun hv hhv => ?_, fun e2 he2 => Except.noConfusion he2⟩
          · show (_ : St).files p = _
            unfold to_permanent_path
            rw [St.set_files_ne _ _ _ _ hp1, St.set_files_ne _ _ _ _ hp2]
            exact hframe p hp2
          · obtain rfl : c = hv := by injection hhv
            refine ⟨?_, rfl, hlog2, fun hne => ?_⟩
            · show (_ : St).files output_path = _
              unfold to_permanent_path
              rw [St.set_files_same, hc]
            · show (_ : St).files (tmpPath st.cnt) = none
              unfold to_permanent_path
              rw [St.set_files_ne _ _ _ _ (Ne.symm hne), St.set_files_same]
        · simp only [verify_or_get_hash, verify_hash, hexp, hhash, if_neg hce] at h
          obtain ⟨rfl, rfl⟩ := Prod.mk.injEq .. ▸ h
          exact ⟨hlog, fun p _ hp2 => hframe p hp2, hlinks,
            fun hv hhv => Except.noConfusion hhv, fun e2 _ hne => hframe _ hne⟩

theorem append_single_ne_tmpPath (p : FsPath) (c : PathC) (k : Nat)
    (hc : ∀ j, c ≠ PathC.num j) : p ++ [c] ≠ tmpPath k := by
  cases p with
  | nil =>
    intro h
    simp only [List.nil_append, tmpPath, List.cons.injEq, and_true] at h
    exact hc k h
  | cons a l =>
    intro h
    have hlen := congrArg List.length h
    simp [tmpPath] at hlen

theorem cubeManifestPath_ne_tmpPath (cube_path : FsPath) (k : Nat) :
    cubeManifestPath cube_path ≠ tmpPath k :=
  append_single_ne_tmpPath _ _ _ (fun j => by simp)

theorem cubeParamsPath_ne_tmpPath (cube_path : FsPath) (k : Nat) :
    cubeParamsPath cube_path ≠ tmpPath k := by
  have : cubeParamsPath cube_path
      = (cube_path ++ [PathC.str workspace_path]) ++ [PathC.str params_filename] := by
    simp [cubeParamsPath]
  rw [this]
  exact append_single_ne_tmpPath _ _ _ (fun j => by simp)

theorem additionalFilesFolder_ne_tmpPath (cube_path : FsPath) (k : Nat) :
    additionalFilesFolder cube_path ≠ tmpPath k :=
  append_single_ne_tmpPath _ _ _ (fun j => by simp)

theorem mlcubeCachePath_ne_tmpPath (cube_path : FsPath) (k : Nat) :
    mlcubeCachePath cube_path ≠ tmpPath k :=
  append_single_ne_tmpPath _ _ _ (fun j => by simp)

theorem imageStoragePath_ne_tmpPath (hv : Hash) (k : Nat) :
    imageStoragePath hv ≠ tmpPath k :=
  append_single_ne_tmpPath _ _ _ (fun j => by simp)

theorem demoDatasetFolder_ne_tmpPath (hv : Hash) (k : Nat) :
    demoDatasetFolder hv ≠ tmpPath k :=
  append_single_ne_tmpPath _ _ _ (fun j => by simp)

/-! ## Behaviour of `get_cube` -/

theorem verify_or_get_hash_ok (st : St) (p : FsPath) (expected : Option Hash) (c : Hash)
    (h : verify_or_get_hash st p expected = .ok c) :
    c = get_file_hash st p ∧ expected.getD c = c := by
  unfold verify_or_get_hash at h
  cases hv : verify_hash (get_file_hash st p) expected with
  | error e => rw [hv] at h; simp at h
  | ok u =>
    rw [hv] at h
    simp only [Except.ok.injEq] at h
    subst h
    refine ⟨rfl, ?_⟩
    unfold verify_hash at hv
    cases expected with
    | none => simp
    | some e =>
      simp only at hv
      split at hv
      · next heq => simp [heq]
      · next => simp at hv

theorem should_get_cube_false (st : St) (output_path : FsPath) (expected : Option Hash)
    (h : _should_get_cube st output_path expected = .ok false) :
    ∃ e obj, expected = some e ∧ st.files output_path = some obj ∧ obj.hashOf = e := by
  unfold _should_get_cube at h
  split at h
  · next hcond =>
      obtain ⟨hf, he⟩ := hcond
      obtain ⟨obj, hobj⟩ := Option.isSome_iff_exists.mp hf
      obtain ⟨e, he2⟩ := Option.isSome_iff_exists.mp he
      refine ⟨e, obj, he2, hobj, ?_⟩
      cases hv : verify_or_get_hash st output_path expected with
      | error e2 => rw [hv] at h; simp at h
      | ok c =>
        obtain ⟨rfl, hgetd⟩ := verify_or_get_hash_ok _ _ _ _ hv
        rw [he2] at hgetd
        simp only [Option.getD_some] at hgetd
        rw [hgetd]
        simp [get_file_hash, hobj]
  · simp at h

theorem get_cube_ok (sources : List Source) (url : String) (cube_path : FsPath)
    (expected : Option Hash) (st : St) (p1 : FsPath) (hv1 : Hash) (st2 : St)
    (h : get_cube sources url cube_path expected st = (.ok (p1, hv1), st2)) :
    p1 = cubeManifestPath cube_path
    ∧ (∃ obj, st2.files (cubeManifestPath cube_path) = some obj ∧ obj.hashOf = hv1)
    ∧ expected.getD hv1 = hv1
    ∧ (st2.log = st.log ∨ st2.log = url :: st.log)
    ∧ (∀ p, permanentPath p → p ≠ cubeManifestPath cube_path → st2.files p = st.files p) := by
  unfold get_cube at h
  dsimp only at h
  split at h
  · next e heq => simp at h
  · next heq =>
      simp only [Prod.mk.injEq, Except.ok.injEq] at h
      obtain ⟨⟨rfl, rfl⟩, rfl⟩ := h
      obtain ⟨e, obj, rfl, hobj, hhash⟩ := should_get_cube_false _ _ _ heq
      exact ⟨rfl, ⟨obj, hobj, by simp [hhash]⟩, by simp, Or.inl rfl, fun p _ _ => rfl⟩
  · next heq =>
      split at h
      · next e dst hd => simp at h
      · next hv dst hd =>
          simp only [Prod.mk.injEq, Except.ok.injEq] at h
          obtain ⟨⟨rfl, rfl⟩, rfl⟩ := h
          obtain ⟨_, hframe, _, hokc, _⟩ := download_resource_spec _ _ _ _ _ _ _ hd
          obtain ⟨hfile, hgetd, hlog, _⟩ := hokc _ rfl
          have hcnt : (if (st.files (cubeManifestPath cube_path)).isSome
              then remove_path st (cubeManifestPath cube_path) else st).cnt = st.cnt := by
            split <;> rfl
          have hlogpre : (if (st.files (cubeManifestPath cube_path)).isSome
              then remove_path st (cubeManifestPath cube_path) else st).log = st.log := by
            split <;> rfl
          refine ⟨rfl, ⟨_, hfile, rfl⟩, hgetd, Or.inr (by rw [hlog, hlogpre]), ?_⟩
          intro p hperm hne
          rw [hframe p hne (hcnt ▸ permanent_ne_tmpPath hperm _)]
          unfold remove_path
          split
          · exact St.set_files_ne _ _ _ _ hne
          · rfl

theorem get_cube_err (sources : List Source) (url : String) (cube_path : FsPath)
    (expected : Option Hash) (st : St) (e : MErr) (st2 : St)
    (h : get_cube sources url cube_path expected st = (.error e, st2)) :
    (st2.files (cubeManifestPath cube_path) = st.files (cubeManifestPath cube_path)
      ∨ st2.files (cubeManifestPath cube_path) = none)
    ∧ (st2.log = st.log ∨ st2.log = url :: st.log)
    ∧ (∀ p, permanentPath p → p ≠ cubeManifestPath cube_path → st2.files p = st.files p) := by
  unfold get_cube at h
  dsimp only at h
  split at h
  · next e2 heq =>
      simp only [Prod.mk.injEq, Except.error.injEq] at h
      obtain ⟨rfl, rfl⟩ := h
      exact ⟨Or.inl rfl, Or.inl rfl, fun p _ _ => rfl⟩
  · next heq => simp at h
  · next heq =>
      split at h
      · next e2 dst hd =>
          simp only [Prod.mk.injEq, Except.error.injEq] at h
          obtain ⟨rfl, rfl⟩ := h
          obtain ⟨hlogd, hframe, _, _, herrc⟩ := download_resource_spec _ _ _ _ _ _ _ hd
          have hcnt : (if (st.files (cubeManifestPath cube_path)).isSome
              then remove_path st (cubeManifestPath cube_path) else st).cnt = st.cnt := by
            split <;> rfl
          have hlogpre : (if (st.files (cubeManifestPath cube_path)).isSome
              then remove_path st (cubeManifestPath cube_path) else st).log = st.log := by
            split <;> rfl
          have hout := herrc _ rfl (hcnt ▸ cubeManifestPath_ne_tmpPath cube_path st.cnt)
          refine ⟨?_, ?_, ?_⟩
          · rw [hout]
            unfold remove_path
            split
            · exact Or.inr (St.set_files_same ..)
            · exact Or.inl rfl
          · rw [hlogpre] at hlogd
            exact hlogd
          · intro p hperm hne
            rw [hframe p hne (hcnt ▸ permanent_ne_tmpPath hperm _)]
            unfold remove_path
            split
            · exact St.set_files_ne _ _ _ _ hne
            · rfl
      · next hv dst hd => simp at h

theorem get_cube_cached (sources : List Source) (url : String) (cube_path : FsPath)
    (e : Hash) (st : St) (obj : Obj)
    (hobj : st.files (cubeManifestPath cube_path) = some obj)
    (hh : obj.hashOf = e) :
    get_cube sources url cube_path (some e) st
      = (.ok (cubeManifestPath cube_path, e), st) := by
  unfold get_cube _should_get_cube verify_or_get_hash verify_hash get_file_hash
  simp [hobj, hh]

theorem get_cube_none_ok (sources : List Source) (url : String) (cube_path : FsPath)
    (st : St) (p1 : FsPath) (hv1 : Hash) (st2 : St)
    (h : get_cube sources url cube_path none st = (.ok (p1, hv1), st2)) :
    st2.files (cubeManifestPath cube_path) = some (.file hv1) := by
  unfold get_cube at h
  dsimp only at h
  split at h
  · next e heq => simp at h
  · next heq =>
      exfalso
      obtain ⟨e, obj, he, _, _⟩ := should_get_cube_false _ _ _ heq
      cases he
  · next heq =>
      split at h
      · next e dst hd => simp at h
      · next hv dst hd =>
          simp only [Prod.mk.injEq, Except.ok.injEq] at h
          obtain ⟨⟨rfl, rfl⟩, rfl⟩ := h
          obtain ⟨_, _, _, hokc, _⟩ := download_resource_spec _ _ _ _ _ _ _ hd
          exact (hokc _ rfl).1

/-! ## Behaviour of `get_cube_params` -/

theorem get_cube_params_ok (sources : List Source) (url : String) (cube_path : FsPath)
    (expected : Option Hash) (st : St) (p1 : FsPath) (hv1 : Hash) (st2 : St)
    (h : get_cube_params sources url cube_path expected st = (.ok (p1, hv1), st2)) :
    p1 = cubeParamsPath cube_path
    ∧ (∃ obj, st2.files (cubeParamsPath cube_path) = some obj ∧ obj.hashOf = hv1)
    ∧ expected.getD hv1 = hv1
    ∧ (st2.log = st.log ∨ st2.log = url :: st.log)
    ∧ (∀ p, permanentPath p → p ≠ cubeParamsPath cube_path → st2.files p = st.files p) := by
  unfold get_cube_params _should_get_cube_params at h
  dsimp only at h
  split at h
  · next e heq => simp at h
  · next heq =>
      simp only [Prod.mk.injEq, Except.ok.injEq] at h
      obtain ⟨⟨rfl, rfl⟩, rfl⟩ := h
      obtain ⟨e, obj, rfl, hobj, hhash⟩ := should_get_cube_false _ _ _ heq
      exact ⟨rfl, ⟨obj, hobj, by simp [hhash]⟩, by simp, Or.inl rfl, fun p _ _ => rfl⟩
  · next heq =>
      split at h
      · next e dst hd => simp at h
      · next hv dst hd =>
          simp only [Prod.mk.injEq, Except.ok.injEq] at h
          obtain ⟨⟨rfl, rfl⟩, rfl⟩ := h
          obtain ⟨_, hframe, _, hokc, _⟩ := download_resource_spec _ _ _ _ _ _ _ hd
          obtain ⟨hfile, hgetd, hlog, _⟩ := hokc _ rfl
          have hcnt : (if (st.files (cubeParamsPath cube_path)).isSome
              then remove_path st (cubeParamsPath cube_path) else st).cnt = st.cnt := by
            split <;> rfl
          have hlogpre : (if (st.files (cubeParamsPath cube_path)).isSome
              then remove_path st (cubeParamsPath cube_path) else st).log = st.log := by
            split <;> rfl
          refine ⟨rfl, ⟨_, hfile, rfl⟩, hgetd, Or.inr (by rw [hlog, hlogpre]), ?_⟩
          intro p hperm hne
          rw [hframe p hne (hcnt ▸ permanent_ne_tmpPath hperm _)]
          unfold remove_path
          split
          · exact St.set_files_ne _ _ _ _ hne
          · rfl

theorem get_cube_params_err (sources : List Source) (url : String) (cube_path : FsPath)
    (expected : Option Hash) (st : St) (e : MErr) (st2 : St)
    (h : get_cube_params sources url cube_path expected st = (.error e, st2)) :
    (st2.files (cubeParamsPath cube_path) = st.files (cubeParamsPath cube_path)
      ∨ st2.files (cubeParamsPath cube_path) = none)
    ∧ (st2.log = st.log ∨ st2.log = url :: st.log)
    ∧ (∀ p, permanentPath p → p ≠ cubeParamsPath cube_path → st2.files p = st.files p) := by
  unfold get_cube_params _should_get_cube_params at h
  dsimp only at h
  split at h
  · next e2 heq =>
      simp only [Prod.mk.injEq, Except.error.injEq] at h
      obtain ⟨rfl, rfl⟩ := h
      exact ⟨Or.inl rfl, Or.inl rfl, fun p _ _ => rfl⟩
  · next heq => simp at h
  · next heq =>
      split at h
      · next e2 dst hd =>
          simp only [Prod.mk.injEq, Except.error.injEq] at h
          obtain ⟨rfl, rfl⟩ := h
          obtain ⟨hlogd, hframe, _, _, herrc⟩ := download_resource_spec _ _ _ _ _ _ _ hd
          have hcnt : (if (st.files (cubeParamsPath cube_path)).isSome
              then remove_path st (cubeParamsPath cube_path) else st).cnt = st.cnt := by
            split <;> rfl
          have hlogpre : (if (st.files (cubeParamsPath cube_path)).isSome
              then remove_path st (cubeParamsPath cube_path) else st).log = st.log := by
            split <;> rfl
          have hout := herrc _ rfl (hcnt ▸ cubeParamsPath_ne_tmpPath cube_path st.cnt)
          refine ⟨?_, ?_, ?_⟩
          · rw [hout]
            unfold remove_path
            split
            · exact Or.inr (St.set_files_same ..)
            · exact Or.inl rfl
          · rw [hlogpre] at hlogd
            exact hlogd
          · intro p hperm hne
            rw [hframe p hne (hcnt ▸ permanent_ne_tmpPath hperm _)]
            unfold remove_path
            split
            · exact St.set_files_ne _ _ _ _ hne
            · rfl
      · next hv dst hd => simp at h

theorem get_cube_params_cached (sources : List Source) (url : String) (cube_path : FsPath)
    (e : Hash) (st : St) (obj : Obj)
    (hobj : st.files (cubeParamsPath cube_path) = some obj)
    (hh : obj.hashOf = e) :
    get_cube_params sources url cube_path (some e) st
      = (.ok (cubeParamsPath cube_path, e), st) := by
  unfold get_cube_params _should_get_cube_params _should_get_cube verify_or_get_hash verify_hash get_file_hash
  simp [hobj, hh]

theorem get_cube_params_none_ok (sources : List Source) (url : String) (cube_path : FsPath)
    (st : St) (p1 : FsPath) (hv1 : Hash) (st2 : St)
    (h : get_cube_params sources url cube_path none st = (.ok (p1, hv1), st2)) :
    st2.files (cubeParamsPath cube_path) = some (.file hv1) := by
  unfold get_cube_params _should_get_cube_params at h
  dsimp only at h
  split at h
  · next e heq => simp at h
  · next heq =>
      exfalso
      obtain ⟨e, obj, he, _, _⟩ := should_get_cube_false _ _ _ heq
      cases he
  · next heq =>
      split at h
      · next e dst hd => simp at h
      · next hv dst hd =>
          simp only [Prod.mk.injEq, Except.ok.injEq] at h
          obtain ⟨⟨rfl, rfl⟩, rfl⟩ := h
          obtain ⟨_, _, _, hokc, _⟩ := download_resource_spec _ _ _ _ _ _ _ hd
          exact (hokc _ rfl).1

/-! ## Behaviour of `get_cube_image` -/

theorem unlink_state_files (st : St) (f : FsPath) :
    (if (st.links f).isSome then st.setLink f none else st).files = st.files := by
  split <;> rfl

theorem unlink_state_log (st : St) (f : FsPath) :
    (if (st.links f).isSome then st.setLink f none else st).log = st.log := by
  split <;> rfl

theorem get_cube_image_ok (sources : List Source) (url : String) (cube_path : FsPath)
    (image_name : String) (hash_value : Option Hash) (st : St)
    (p1 : FsPath) (hv1 : Hash) (st2 : St)
    (h : get_cube_image sources url cube_path image_name hash_value st
          = (.ok (p1, hv1), st2)) :
    p1 = imageCubeFile cube_path image_name
    ∧ hash_value.getD hv1 = hv1
    ∧ (st2.log = st.log ∨ st2.log = url :: st.log)
    ∧ (∀ p, permanentPath p → p ≠ imageStoragePath hv1 → st2.files p = st.files p)
    ∧ (st2.files (imageStoragePath hv1) = st.files (imageStoragePath hv1)
      ∨ st2.files (imageStoragePath hv1) = some (.file hv1))
    ∧ (st2.files (imageStoragePath hv1)).isSome
    ∧ (hash_value = none → st2.files (imageStoragePath hv1) = some (.file hv1)) := by
  cases hash_value with
  | none =>
    unfold get_cube_image at h
    dsimp only at h
    generalize hG : (if (st.links (imageCubeFile cube_path image_name)).isSome
        then st.setLink (imageCubeFile cube_path image_name) none else st) = st0 at h
    have hfiles0 : st0.files = st.files := by
      rw [← hG]; exact unlink_state_files st _
    have hlog0 : st0.log = st.log := by
      rw [← hG]; exact unlink_state_log st _
    split at h
    · next e dst hd => simp at h
    · next hv dst hd =>
        simp only [Prod.mk.injEq, Except.ok.injEq] at h
        obtain ⟨⟨rfl, rfl⟩, rfl⟩ := h
        obtain ⟨_, hframe, _, hokc, _⟩ := download_resource_spec _ _ _ _ _ _ _ hd
        obtain ⟨hfile, _, hlog, _⟩ := hokc _ rfl
        have himg : (to_permanent_path dst (tmpPath st0.cnt)
              (imageStoragePath hv)).files (imageStoragePath hv)
            = some (.file hv) := by
          unfold to_permanent_path
          rw [St.set_files_same, hfile]
        refine ⟨rfl, rfl, Or.inr ?_, ?_, Or.inr himg, ?_, fun _ => himg⟩
        · show dst.log = _
          rw [hlog]
          show url :: st0.log = _
          rw [hlog0]
        · intro p hperm hne
          show (to_permanent_path dst (tmpPath st0.cnt) (imageStoragePath hv)).files p = _
          unfold to_permanent_path
          rw [St.set_files_ne _ _ _ _ hne,
            St.set_files_ne _ _ _ _ (permanent_ne_tmpPath hperm _),
            hframe p (permanent_ne_tmpPath hperm _) (permanent_ne_tmpPath hperm _)]
          show st0.files p = _
          rw [hfiles0]
        · show ((to_permanent_path dst (tmpPath st0.cnt)
              (imageStoragePath hv)).files (imageStoragePath hv)).isSome
          rw [himg]
          rfl
  | some hv =>
    unfold get_cube_image at h
    dsimp only at h
    generalize hG : (if (st.links (imageCubeFile cube_path image_name)).isSome
        then st.setLink (imageCubeFile cube_path image_name) none else st) = st0 at h
    have hfiles0 : st0.files = st.files := by
      rw [← hG]; exact unlink_state_files st _
    have hlog0 : st0.log = st.log := by
      rw [← hG]; exact unlink_state_log st _
    split at h
    · next hcond =>
        simp only [Prod.mk.injEq, Except.ok.injEq] at h
        obtain ⟨⟨rfl, rfl⟩, rfl⟩ := h
        refine ⟨rfl, rfl, Or.inl ?_, fun p _ _ => ?_, Or.inl ?_, ?_,
          fun hcon => Option.noConfusion hcon⟩
        · show st0.log = _
          exact hlog0
        · show st0.files p = _
          rw [hfiles0]
        · show st0.files (imageStoragePath hv) = _
          rw [hfiles0]
        · show (st0.files (imageStoragePath hv)).isSome
          exact hcond
    · next hcond =>
        split at h
        · next e2 dst hd => simp at h
        · next hv2 dst hd =>
            simp only [Prod.mk.injEq, Except.ok.injEq] at h
            obtain ⟨⟨rfl, rfl⟩, rfl⟩ := h
            obtain ⟨_, hframe, _, hokc, _⟩ := download_resource_spec _ _ _ _ _ _ _ hd
            obtain ⟨hfile, hgetd, hlogd, _⟩ := hokc _ rfl
            simp only [Option.getD_some] at hgetd
            subst hgetd
            refine ⟨rfl, rfl, Or.inr ?_, ?_, Or.inr hfile, ?_, fun hcon => Option.noConfusion hcon⟩
            · show dst.log = _
              rw [hlogd, hlog0]
            · intro p hperm hne
              show dst.files p = _
              rw [hframe p hne (permanent_ne_tmpPath hperm _)]
              show st0.files p = _
              rw [hfiles0]
            · show (dst.files (imageStoragePath hv)).isSome
              rw [hfile]
              rfl

theorem get_cube_image_err (sources : List Source) (url : String) (cube_path : FsPath)
    (image_name : String) (hash_value : Option Hash) (st : St) (e : MErr) (st2 : St)
    (h : get_cube_image sources url cube_path image_name hash_value st = (.error e, st2)) :
    (st2.log = st.log ∨ st2.log = url :: st.log)
    ∧ (∀ p, permanentPath p → st2.files p = st.files p) := by
  cases hash_value with
  | none =>
    unfold get_cube_image at h
    dsimp only at h
    generalize hG : (if (st.links (imageCubeFile cube_path image_name)).isSome
        then st.setLink (imageCubeFile cube_path image_name) none else st) = st0 at h
    have hfiles0 : st0.files = st.files := by
      rw [← hG]; exact unlink_state_files st _
    have hlog0 : st0.log = st.log := by
      rw [← hG]; exact unlink_state_log st _
    split at h
    · next e2 dst hd =>
        simp only [Prod.mk.injEq, Except.error.injEq] at h
        obtain ⟨rfl, rfl⟩ := h
        obtain ⟨hlogd, hframe, _, _, _⟩ := download_resource_spec _ _ _ _ _ _ _ hd
        constructor
        · rw [hlog0] at hlogd
          exact hlogd
        · intro p hperm
          rw [hframe p (permanent_ne_tmpPath hperm _) (permanent_ne_tmpPath hperm _)]
          show st0.files p = _
          rw [hfiles0]
    · next hv dst hd => simp at h
  | some hv =>
    unfold get_cube_image at h
    dsimp only at h
    generalize hG : (if (st.links (imageCubeFile cube_path image_name)).isSome
        then st.setLink (imageCubeFile cube_path image_name) none else st) = st0 at h
    have hfiles0 : st0.files = st.files := by
      rw [← hG]; exact unlink_state_files st _
    have hlog0 : st0.log = st.log := by
      rw [← hG]; exact unlink_state_log st _
    split at h
    · next hcond => simp at h
    · next hcond =>
        split at h
        · next e2 dst hd =>
            simp only [Prod.mk.injEq, Except.error.injEq] at h
            obtain ⟨rfl, rfl⟩ := h
            obtain ⟨hlogd, hframe, _, _, herrc⟩ := download_resource_spec _ _ _ _ _ _ _ hd
            constructor
            · rw [hlog0] at hlogd
              exact hlogd
            · intro p hperm
              by_cases hpimg : p = imageStoragePath hv
              · subst hpimg
                rw [herrc _ rfl (imageStoragePath_ne_tmpPath hv _)]
                show st0.files _ = _
                rw [hfiles0]
              · rw [hframe p hpimg (permanent_ne_tmpPath hperm _)]
                show st0.files p = _
                rw [hfiles0]
        · next hv2 dst hd => simp at h

theorem get_cube_image_cached (sources : List Source) (url : String) (cube_path : FsPath)
    (image_name : String) (hv : Hash) (st : St)
    (hsome : (st.files (imageStoragePath hv)).isSome) :
    (get_cube_image sources url cube_path image_name (some hv) st).1
        = .ok (imageCubeFile cube_path image_name, hv)
    ∧ (get_cube_image sources url cube_path image_name (some hv) st).2.files = st.files
    ∧ (get_cube_image sources url cube_path image_name (some hv) st).2.log = st.log := by
  unfold get_cube_image
  dsimp only
  generalize hG : (if (st.links (imageCubeFile cube_path image_name)).isSome
      then st.setLink (imageCubeFile cube_path image_name) none else st) = st0
  have hfiles0 : st0.files = st.files := by
    rw [← hG]; exact unlink_state_files st _
  have hlog0 : st0.log = st.log := by
    rw [← hG]; exact unlink_state_log st _
  rw [hfiles0, if_pos hsome]
  exact ⟨rfl, hfiles0, hlog0⟩

/-! ## Behaviour of `get_cube_additional` -/

theorem additionalFilesFolder_ne_cachePath (cube_path : FsPath) :
    additionalFilesFolder cube_path ≠ mlcubeCachePath cube_path := by
  unfold additionalFilesFolder mlcubeCachePath additional_path mlcube_cache_file
  intro h
  have := List.append_cancel_left h
  simp at this

theorem should_additional_false (st : St) (folder : FsPath) (expected : Option Hash)
    (cacheF : FsPath)
    (h : ¬ _should_get_cube_additional st folder expected cacheF = true) :
    ∃ e, expected = some e ∧ (st.files folder).isSome
      ∧ st.files cacheF = some (.meta e) := by
  unfold _should_get_cube_additional at h
  dsimp only at h
  split at h
  · next hcond =>
      obtain ⟨hf, he⟩ := hcond
      obtain ⟨e, he2⟩ := Option.isSome_iff_exists.mp he
      subst he2
      refine ⟨e, rfl, hf, ?_⟩
      rw [decide_eq_true_eq] at h
      push_neg at h
      cases hm : st.files cacheF with
      | none => rw [hm] at h; simp at h
      | some obj =>
        cases obj with
        | file c => rw [hm] at h; simp at h
        | dir tar => rw [hm] at h; simp at h
        | meta h1 =>
          rw [hm] at h
          simp only [Option.some.injEq] at h
          rw [h]
  · simp at h

theorem swap_files (b : St) (tmpF folder : FsPath) (hne : folder ≠ tmpF) :
    (to_permanent_path (if (b.files folder).isSome then remove_path b folder else b)
        tmpF folder).files folder
      = b.files tmpF := by
  unfold to_permanent_path remove_path
  rw [St.set_files_same]
  split
  · exact St.set_files_ne _ _ _ _ (Ne.symm hne)
  · rfl

theorem swap_files_other (b : St) (tmpF folder p : FsPath)
    (hpf : p ≠ folder) (hpt : p ≠ tmpF) :
    (to_permanent_path (if (b.files folder).isSome then remove_path b folder else b)
        tmpF folder).files p
      = b.files p := by
  unfold to_permanent_path remove_path
  rw [St.set_files_ne _ _ _ _ hpf, St.set_files_ne _ _ _ _ hpt]
  split
  · exact St.set_files_ne _ _ _ _ hpf
  · rfl

theorem swap_log (b : St) (tmpF folder : FsPath) :
    (to_permanent_path (if (b.files folder).isSome then remove_path b folder else b)
        tmpF folder).log
      = b.log := by
  unfold to_permanent_path remove_path
  split <;> rfl

theorem get_cube_additional_ok (sources : List Source) (url : String)
    (cube_path : FsPath) (expected : Option Hash) (st : St) (hv : Hash) (st2 : St)
    (h : get_cube_additional sources url cube_path expected st = (.ok hv, st2)) :
    expected.getD hv = hv
    ∧ (st2.log = st.log ∨ st2.log = url :: st.log)
    ∧ (∀ p, permanentPath p → p ≠ additionalFilesFolder cube_path
        → p ≠ mlcubeCachePath cube_path → st2.files p = st.files p)
    ∧ (st2.files (additionalFilesFolder cube_path)
        = st.files (additionalFilesFolder cube_path)
      ∨ st2.files (additionalFilesFolder cube_path) = some (.dir hv))
    ∧ (st2.files (additionalFilesFolder cube_path)).isSome
    ∧ st2.files (mlcubeCachePath cube_path) = some (.meta hv)
    ∧ (expected = none → st2.files (additionalFilesFolder cube_path) = some (.dir hv)) := by
  unfold get_cube_additional at h
  dsimp only at h
  split at h
  · -- fetch branch
    split at h
    · next e dst hd => simp at h
    · next hv0 dst hd =>
        obtain ⟨_, hframe, _, hokc, _⟩ := download_resource_spec _ _ _ _ _ _ _ hd
        obtain ⟨hfile, hgetd, hlogd, _⟩ := hokc _ rfl
        have huntar : untar_at dst (tmpPath st.cnt ++ [PathC.str tarball_filename])
            = some ((dst.set (tmpPath st.cnt ++ [PathC.str tarball_filename]) none).set
                (tmpPath st.cnt) (some (.dir hv0))) := by
          unfold untar_at
          rw [hfile]
          rfl
        rw [huntar] at h
        dsimp only at h
        generalize hst3 : (dst.set (tmpPath st.cnt ++ [PathC.str tarball_filename])
            none).set (tmpPath st.cnt) (some (Obj.dir hv0)) = st3 at h
        have hst3tmp : st3.files (tmpPath st.cnt) = some (.dir hv0) := by
          rw [← hst3]
          exact St.set_files_same ..
        have hst3other : ∀ p, p ≠ tmpPath st.cnt
            → p ≠ tmpPath st.cnt ++ [PathC.str tarball_filename]
            → st3.files p = dst.files p := by
          intro p h1 h2
          rw [← hst3, St.set_files_ne _ _ _ _ h1, St.set_files_ne _ _ _ _ h2]
        have hst3log : st3.log = dst.log := by
          rw [← hst3]
          rfl
        simp only [Prod.mk.injEq, Except.ok.injEq] at h
        obtain ⟨rfl, rfl⟩ := h
        have hfolderval : ((to_permanent_path
              (if (st3.files (additionalFilesFolder cube_path)).isSome
               then remove_path st3 (additionalFilesFolder cube_path) else st3)
              (tmpPath st.cnt) (additionalFilesFolder cube_path)).set
              (mlcubeCachePath cube_path) (some (Obj.meta hv0))).files
            (additionalFilesFolder cube_path) = some (.dir hv0) := by
          rw [St.set_files_ne _ _ _ _ (additionalFilesFolder_ne_cachePath cube_path),
            swap_files _ _ _ (additionalFilesFolder_ne_tmpPath cube_path st.cnt),
            hst3tmp]
        refine ⟨hgetd, Or.inr ?_, ?_, Or.inr hfolderval, ?_, ?_, fun _ => hfolderval⟩
        · rw [St.set_log, swap_log, hst3log, hlogd]
        · intro p hperm hpf hpc
          rw [St.set_files_ne _ _ _ _ hpc,
            swap_files_other _ _ _ _ hpf (permanent_ne_tmpPath hperm _),
            hst3other p (permanent_ne_tmpPath hperm _)
              (permanent_ne_of_not_permanent hperm
                (not_permanent_tmpPath_append st.cnt _)),
            hframe p (permanent_ne_of_not_permanent hperm
              (not_permanent_tmpPath_append st.cnt _)) (permanent_ne_tmpPath hperm _)]
        · rw [hfolderval]
          rfl
        · rw [St.set_files_same]
  · -- cached branch
    next hshould =>
      obtain ⟨e, rfl, hfolder, hmeta⟩ := should_additional_false _ _ _ _ hshould
      simp only [Prod.mk.injEq, Except.ok.injEq] at h
      obtain ⟨rfl, rfl⟩ := h
      exact ⟨rfl, Or.inl rfl, fun p _ _ _ => rfl, Or.inl rfl, hfolder, hmeta,
        fun hcon => Option.noConfusion hcon⟩

theorem get_cube_additional_err (sources : List Source) (url : String)
    (cube_path : FsPath) (expected : Option Hash) (st : St) (e : MErr) (st2 : St)
    (h : get_cube_additional sources url cube_path expected st = (.error e, st2)) :
    (st2.log = st.log ∨ st2.log = url :: st.log)
    ∧ (∀ p, permanentPath p → st2.files p = st.files p) := by
  unfold get_cube_additional at h
  dsimp only at h
  split at h
  · split at h
    · next e2 dst hd =>
        simp only [Prod.mk.injEq, Except.error.injEq] at h
        obtain ⟨rfl, rfl⟩ := h
        obtain ⟨hlogd, hframe, _, _, _⟩ := download_resource_spec _ _ _ _ _ _ _ hd
        refine ⟨hlogd, fun p hperm => ?_⟩
        exact hframe p (permanent_ne_of_not_permanent hperm
          (not_permanent_tmpPath_append st.cnt _)) (permanent_ne_tmpPath hperm _)
    · next hv0 dst hd =>
        obtain ⟨_, _, _, hokc, _⟩ := download_resource_spec _ _ _ _ _ _ _ hd
        obtain ⟨hfile, _, _, _⟩ := hokc _ rfl
        have huntar : untar_at dst (tmpPath st.cnt ++ [PathC.str tarball_filename])
            = some ((dst.set (tmpPath st.cnt ++ [PathC.str tarball_filename]) none).set
                (tmpPath st.cnt) (some (.dir hv0))) := by
          unfold untar_at
          rw [hfile]
          rfl
        rw [huntar] at h
        dsimp only at h
        simp at h
  · simp at h

theorem get_cube_additional_cached (sources : List Source) (url : String)
    (cube_path : FsPath) (e : Hash) (st : St)
    (hfolder : (st.files (additionalFilesFolder cube_path)).isSome)
    (hmeta : st.files (mlcubeCachePath cube_path) = some (.meta e)) :
    get_cube_additional sources url cube_path (some e) st = (.ok e, st) := by
  unfold get_cube_additional _should_get_cube_additional
  dsimp only
  rw [hmeta]
  simp [hfolder]

/-! ## Behaviour of `get_benchmark_demo_dataset` -/

theorem demo_fetch_ok (sources : List Source) (url : String) (expected : Option Hash)
    (st : St) (p1 : FsPath) (hv : Hash) (st2 : St)
    (h : get_benchmark_demo_dataset_fetch sources url expected st = (.ok (p1, hv), st2)) :
    p1 = demoDatasetFolder hv
    ∧ expected.getD hv = hv
    ∧ st2.log = url :: st.log
    ∧ st2.files (demoDatasetFolder hv) = some (.dir hv)
    ∧ (∀ p, permanentPath p → p ≠ demoDatasetFolder hv → st2.files p = st.files p) := by
  unfold get_benchmark_demo_dataset_fetch at h
  dsimp only at h
  split at h
  · next e dst hd => simp at h
  · next hv0 dst hd =>
      obtain ⟨_, hframe, _, hokc, _⟩ := download_resource_spec _ _ _ _ _ _ _ hd
      obtain ⟨hfile, hgetd, hlogd, _⟩ := hokc _ rfl
      have huntar : untar_at dst (tmpPath st.cnt ++ [PathC.str tarball_filename])
          = some ((dst.set (tmpPath st.cnt ++ [PathC.str tarball_filename]) none).set
              (tmpPath st.cnt) (some (.dir hv0))) := by
        unfold untar_at
        rw [hfile]
        rfl
      rw [huntar] at h
      dsimp only at h
      generalize hst3 : (dst.set (tmpPath st.cnt ++ [PathC.str tarball_filename])
          none).set (tmpPath st.cnt) (some (Obj.dir hv0)) = st3 at h
      have hst3tmp : st3.files (tmpPath st.cnt) = some (.dir hv0) := by
        rw [← hst3]
        exact St.set_files_same ..
      have hst3other : ∀ p, p ≠ tmpPath st.cnt
          → p ≠ tmpPath st.cnt ++ [PathC.str tarball_filename]
          → st3.files p = dst.files p := by
        intro p h1 h2
        rw [← hst3, St.set_files_ne _ _ _ _ h1, St.set_files_ne _ _ _ _ h2]
      have hst3log : st3.log = dst.log := by
        rw [← hst3]
        rfl
      simp only [Prod.mk.injEq, Except.ok.injEq] at h
      obtain ⟨⟨rfl, rfl⟩, rfl⟩ := h
      refine ⟨rfl, hgetd, ?_, ?_, ?_⟩
      · rw [swap_log, hst3log, hlogd]
      · rw [swap_files _ _ _ (demoDatasetFolder_ne_tmpPath hv0 st.cnt), hst3tmp]
      · intro p hperm hpf
        rw [swap_files_other _ _ _ _ hpf (permanent_ne_tmpPath hperm _),
          hst3other p (permanent_ne_tmpPath hperm _)
            (permanent_ne_of_not_permanent hperm
              (not_permanent_tmpPath_append st.cnt _)),
          hframe p (permanent_ne_of_not_permanent hperm
            (not_permanent_tmpPath_append st.cnt _)) (permanent_ne_tmpPath hperm _)]

theorem demo_fetch_err (sources : List Source) (url : String) (expected : Option Hash)
    (st : St) (e : MErr) (st2 : St)
    (h : get_benchmark_demo_dataset_fetch sources url expected st = (.error e, st2)) :
    (st2.log = st.log ∨ st2.log = url :: st.log)
    ∧ (∀ p, permanentPath p → st2.files p = st.files p) := by
  unfold get_benchmark_demo_dataset_fetch at h
  dsimp only at h
  split at h
  · next e2 dst hd =>
      simp only [Prod.mk.injEq, Except.error.injEq] at h
      obtain ⟨rfl, rfl⟩ := h
      obtain ⟨hlogd, hframe, _, _, _⟩ := download_resource_spec _ _ _ _ _ _ _ hd
      refine ⟨hlogd, fun p hperm => ?_⟩
      exact hframe p (permanent_ne_of_not_permanent hperm
        (not_permanent_tmpPath_append st.cnt _)) (permanent_ne_tmpPath hperm _)
  · next hv0 dst hd =>
      obtain ⟨_, _, _, hokc, _⟩ := download_resource_spec _ _ _ _ _ _ _ hd
      obtain ⟨hfile, _, _, _⟩ := hokc _ rfl
      have huntar : untar_at dst (tmpPath st.cnt ++ [PathC.str tarball_filename])
          = some ((dst.set (tmpPath st.cnt ++ [PathC.str tarball_filename]) none).set
              (tmpPath st.cnt) (some (.dir hv0))) := by
        unfold untar_at
        rw [hfile]
        rfl
      rw [huntar] at h
      dsimp only at h
      simp at h

theorem get_benchmark_demo_dataset_ok (sources : List Source) (url : String)
    (expected : Option Hash) (st : St) (p1 : FsPath) (hv : Hash) (st2 : St)
    (h : get_benchmark_demo_dataset sources url expected st = (.ok (p1, hv), st2)) :
    p1 = demoDatasetFolder hv
    ∧ expected.getD hv = hv
    ∧ (st2.log = st.log ∨ st2.log = url :: st.log)
    ∧ (st2.files (demoDatasetFolder hv) = st.files (demoDatasetFolder hv)
      ∨ st2.files (demoDatasetFolder hv) = some (.dir hv))
    ∧ (st2.files (demoDatasetFolder hv)).isSome
    ∧ (∀ p, permanentPath p → p ≠ demoDatasetFolder hv → st2.files p = st.files p)
    ∧ (expected = none → st2.files (demoDatasetFolder hv) = some (.dir hv)) := by
  cases expected with
  | none =>
    unfold get_benchmark_demo_dataset at h
    dsimp only at h
    obtain ⟨hp, hgetd, hlog, hfolder, hframe⟩ := demo_fetch_ok _ _ _ _ _ _ _ h
    exact ⟨hp, hgetd, Or.inr hlog, Or.inr hfolder, by rw [hfolder]; rfl,
      hframe, fun _ => hfolder⟩
  | some e =>
    unfold get_benchmark_demo_dataset at h
    dsimp only at h
    split at h
    · next hcond =>
        simp only [Prod.mk.injEq, Except.ok.injEq] at h
        obtain ⟨⟨rfl, rfl⟩, rfl⟩ := h
        exact ⟨rfl, rfl, Or.inl rfl, Or.inl rfl, hcond, fun p _ _ => rfl,
          fun hcon => Option.noConfusion hcon⟩
    · next hcond =>
        obtain ⟨hp, hgetd, hlog, hfolder, hframe⟩ := demo_fetch_ok _ _ _ _ _ _ _ h
        exact ⟨hp, hgetd, Or.inr hlog, Or.inr hfolder, by rw [hfolder]; rfl,
          hframe, fun hcon => Option.noConfusion hcon⟩

theorem get_benchmark_demo_dataset_err (sources : List Source) (url : String)
    (expected : Option Hash) (st : St) (e : MErr) (st2 : St)
    (h : get_benchmark_demo_dataset sources url expected st = (.error e, st2)) :
    (st2.log = st.log ∨ st2.log = url :: st.log)
    ∧ (∀ p, permanentPath p → st2.files p = st.files p) := by
  cases expected with
  | none =>
    unfold get_benchmark_demo_dataset at h
    dsimp only at h
    exact demo_fetch_err _ _ _ _ _ _ h
  | some e2 =>
    unfold get_benchmark_demo_dataset at h
    dsimp only at h
    split at h
    · next hcond => simp at h
    · next hcond => exact demo_fetch_err _ _ _ _ _ _ h

theorem get_benchmark_demo_dataset_cached (sources : List Source) (url : String)
    (e : Hash) (st : St)
    (hsome : (st.files (demoDatasetFolder e)).isSome) :
    get_benchmark_demo_dataset sources url (some e) st
      = (.ok (demoDatasetFolder e, e), st) := by
  unfold get_benchmark_demo_dataset
  dsimp only
  rw [if_pos hsome]

/-! ## Behaviour of the public source download -/

theorem chunks_flatten (n : Nat) (l : Content) : (chunks n l).flatten = l := by
  generalize hlen : l.length = len
  induction len using Nat.strong_induction_on generalizing l with
  | _ len ih =>
    rw [chunks]
    split
    · next h =>
        rw [List.isEmpty_iff] at h
        subst h
        simp
    · next h =>
        rw [List.isEmpty_iff] at h
        simp only [List.flatten_cons]
        rw [ih ((l.drop (max n 1)).length) ?_ _ rfl]
        · exact List.take_append_drop _ l
        · subst hlen
          have h1 : 0 < l.length := List.length_pos.mpr h
          have h2 : 1 ≤ max n 1 := le_max_right n 1
          simp only [List.length_drop]
          omega

theorem chunks_length_le (n : Nat) (l : Content) :
    ∀ ch ∈ chunks n l, ch.length ≤ max n 1 := by
  generalize hlen : l.length = len
  induction len using Nat.strong_induction_on generalizing l with
  | _ len ih =>
    rw [chunks]
    split
    · simp
    · next h =>
        rw [List.isEmpty_iff] at h
        intro ch hch
        rw [List.mem_cons] at hch
        cases hch with
        | inl hch =>
          subst hch
          calc (l.take (max n 1)).length = min (max n 1) l.length := List.length_take ..
            _ ≤ max n 1 := min_le_left ..
        | inr hch =>
          refine ih ((l.drop (max n 1)).length) ?_ _ rfl ch hch
          subst hlen
          have h1 : 0 < l.length := List.length_pos.mpr h
          have h2 : 1 ≤ max n 1 := le_max_right n 1
          simp only [List.length_drop]
          omega

theorem write_chunks_spec (output_path : FsPath) (cl : List Content) (st : St)
    (c : Content) (hc : st.files output_path = some (.file c)) :
    (write_chunks output_path cl st).files output_path = some (.file (c ++ cl.flatten))
    ∧ (∀ q, q ≠ output_path → (write_chunks output_path cl st).files q = st.files q) := by
  induction cl generalizing st c with
  | nil =>
    unfold write_chunks
    simp [hc]
  | cons ch rest ih =>
    unfold write_chunks
    dsimp only
    rw [hc]
    obtain ⟨h1, h2⟩ := ih (st.set output_path (some (.file (c ++ ch)))) (c ++ ch)
      (St.set_files_same ..)
    constructor
    · rw [h1]
      simp [List.append_assoc]
    · intro q hq
      rw [h2 q hq]
      exact St.set_files_ne _ _ _ _ hq

/-! ## Evaluation of `download_resource` under a successful fetch -/

theorem download_resource_eval (sources : List Source) (resource : String)
    (output_path : FsPath) (expected : Option Hash) (st : St)
    (s : Source) (rid : String) (c : Content)
    (hparse : parse_resource sources resource = .ok (s, rid))
    (hauth : s.auth_ok = true)
    (hfetch : s.fetch rid = some c) :
    download_resource sources resource output_path expected st
      = (match verify_hash c expected with
         | .error e2 => (.error e2, staged st resource c)
         | .ok _ =>
            (.ok c, to_permanent_path (staged st resource c) (tmpPath st.cnt)
              output_path)) := by
  unfold download_resource tmp_download_resource
  dsimp only
  rw [hparse]
  dsimp only
  rw [hauth]
  simp only [if_true]
  rw [hfetch]
  dsimp only
  have hgfh : get_file_hash (staged st resource c) (tmpPath st.cnt) = c := by
    unfold get_file_hash staged
    rw [St.set_files_same]
    rfl
  unfold verify_or_get_hash
  rw [show ({ st with cnt := st.cnt + 1, log := resource :: st.log } : St).set
      (tmpPath st.cnt) (some (.file c)) = staged st resource c from rfl]
  rw [hgfh]
  cases verify_hash c expected <;> rfl

/-! ## Claim theorems -/

/-- **C1** (code bug): the claim states that raw-path inputs with their
mandatory companions and a preparation cube supplied by exactly one of
`data_prep` / `benchmark_uid` validate without error.  The code instead
raises `InvalidArgumentError` in both single-provider configurations,
because `__validate_data_path_source` tests
`not self.data_prep or not self.benchmark_uid` (requiring both) — the
raised message even asserts a preparation cube "should be passed" when one
was passed.  This theorem evaluates the validator at both failing inputs. -/
theorem validate_rejects_single_preparation_provider :
    validate rawPathDirectPrep
      = .error (.invalidArgument
          "A data preparation cube should be passed when specifying raw data input")
    ∧ validate rawPathBenchmarkPrep
      = .error (.invalidArgument
          "A data preparation cube should be passed when specifying raw data input") := by
  constructor <;> rfl

/-- **C6**: the report's generated uid is a deterministic function of
exactly the resolved benchmark id, model id and dataset hash: equal triples
give equal uids, and a difference in any component gives different uids
(`generated_uid` is modelled from the spec, `entities/report.py` not being
among the sources under study). -/
theorem generated_uid_deterministic_injective
    (b m d b2 m2 d2 : String) :
    generated_uid b m d = generated_uid b2 m2 d2 ↔ (b = b2 ∧ m = m2 ∧ d = d2) := by
  simp [generated_uid]

/-- **C7**: when a persisted report with the current generated uid exists
and `no_cache` is false, the pipeline returns that report's stored results
and never invokes the execution sandbox; with `no_cache` true the sandbox is
invoked regardless, and the new results are written under the uid. -/
theorem cached_report_skips_execution (store : ReportStore) (uid : List String)
    (r sandbox_results : TestResults) :
    (store uid = some r →
      run_cache_phase false store uid sandbox_results = (r, false, store))
    ∧ (run_cache_phase true store uid sandbox_results).2.1 = true
    ∧ (run_cache_phase true store uid sandbox_results).1 = sandbox_results
    ∧ (run_cache_phase true store uid sandbox_results).2.2 uid = some sandbox_results := by
    
  refine ⟨fun hstore => ?_, rfl, rfl, by simp [run_cache_phase, cached_results]⟩
  unfold run_cache_phase cached_results
  rw [if_neg (by simp), hstore]

/-- Witness for C7 at a concrete store, uid and results. -/
theorem cached_report_skips_execution_witness :
    (run_cache_phase false
        (fun u => if u = ["b", "m", "d"] then some [("score", "1")] else none)
        ["b", "m", "d"] [("score", "2")]
      = ([("score", "1")], false,
          fun u => if u = ["b", "m", "d"] then some [("score", "1")] else none))
    ∧ (run_cache_phase true
        (fun u => if u = ["b", "m", "d"] then some [("score", "1")] else none)
        ["b", "m", "d"] [("score", "2")]).2.1 = true := by
  have h := cached_report_skips_execution
    (fun u => if u = ["b", "m", "d"] then some [("score", "1")] else none)
    ["b", "m", "d"] [("score", "1")] [("score", "2")]
  exact ⟨h.1 (by simp), h.2.1⟩

/-- **C10**: `PublicSource.download` raises a retrieval error before
touching the destination when the HTTP status is not 200 (the state is
returned unchanged, so no file is created at the destination); on status
200 it writes exactly the streamed body to the destination, assembled from
chunks each bounded by the configured chunk size. -/
theorem public_source_download_spec (res : HttpResponse) (output_path : FsPath)
    (st : St) :
    (res.status_code ≠ 200 →
      PublicSource_download res output_path st = (.error .commRetrievalError, st))
    ∧ (res.status_code = 200 →
      (PublicSource_download res output_path st).1 = .ok ()
      ∧ (PublicSource_download res output_path st).2.files output_path
          = some (.file res.body)
      ∧ (∀ q, q ≠ output_path →
          (PublicSource_download res output_path st).2.files q = st.files q)
      ∧ ∀ ch ∈ chunks ddl_stream_chunk_size res.body,
          ch.length ≤ ddl_stream_chunk_size) := by
  constructor
  · intro hne
    unfold PublicSource_download
    rw [if_pos hne]
  · intro h200
    have heq : PublicSource_download res output_path st
        = (.ok (), write_chunks output_path (chunks ddl_stream_chunk_size res.body)
            (st.set output_path (some (.file [])))) := by
      unfold PublicSource_download
      rw [if_neg (by simp [h200])]
    have hout := write_chunks_spec output_path (chunks ddl_stream_chunk_size res.body)
      (st.set output_path (some (.file []))) [] (St.set_files_same ..)
    have hmax : max ddl_stream_chunk_size 1 = ddl_stream_chunk_size :=
      max_eq_left (by norm_num [ddl_stream_chunk_size])
    refine ⟨?_, ?_, ?_, ?_⟩
    · rw [heq]
    · rw [heq]
      show (write_chunks output_path (chunks ddl_stream_chunk_size res.body)
          (st.set output_path (some (.file [])))).files output_path = _
      rw [hout.1, List.nil_append, chunks_flatten]
    · intro q hq
      rw [heq]
      show (write_chunks output_path (chunks ddl_stream_chunk_size res.body)
          (st.set output_path (some (.file [])))).files q = _
      rw [hout.2 q hq]
      exact St.set_files_ne _ _ _ _ hq
    · intro ch hch
      exact le_trans (chunks_length_le _ _ ch hch) (le_of_eq hmax)

/-- Witness for C10: a 404 response creates nothing; a 200 response writes
the body. -/
theorem public_source_download_spec_witness :
    PublicSource_download ⟨404, [1, 2]⟩ [PathC.str "out"] stEmpty
      = (.error .commRetrievalError, stEmpty)
    ∧ (PublicSource_download ⟨200, [1, 2, 3]⟩ [PathC.str "out"] stEmpty).1 = .ok ()
    ∧ (PublicSource_download ⟨200, [1, 2, 3]⟩ [PathC.str "out"] stEmpty).2.files
        [PathC.str "out"] = some (.file [1, 2, 3]) := by
  have h404 := (public_source_download_spec ⟨404, [1, 2]⟩ [PathC.str "out"] stEmpty).1
    (by decide)
  have h200 := (public_source_download_spec ⟨200, [1, 2, 3]⟩ [PathC.str "out"] stEmpty).2
    rfl
  exact ⟨h404, h200.1, h200.2.1⟩

/-- **C4**: a download with a deliberately wrong expected hash fails with
`IntegrityError` naming both the calculated and the expected digest, and
the caller-visible output path is left exactly as it was (promotion happens
only after verification); with an absent expected hash, verification
imposes no constraint and the calculated digest of the downloaded bytes is
returned, after promotion. -/
theorem download_resource_hash_enforcement (sources : List Source)
    (resource : String) (output_path : FsPath) (s : Source) (rid : String)
    (c : Content) (e : Hash) (st : St)
    (hparse : parse_resource sources resource = .ok (s, rid))
    (hauth : s.auth_ok = true)
    (hfetch : s.fetch rid = some c)
    (hperm : permanentPath output_path)
    (hwrong : c ≠ e) :
    (download_resource sources resource output_path (some e) st).1
        = .error (.integrityError c e)
    ∧ (download_resource sources resource output_path (some e) st).2.files output_path
        = st.files output_path
    ∧ (download_resource sources resource output_path none st).1 = .ok c
    ∧ (download_resource sources resource output_path none st).2.files output_path
        = some (.file c) := by
  have hwrongEq := download_resource_eval sources resource output_path (some e) st
    s rid c hparse hauth hfetch
  have hnoneEq := download_resource_eval sources resource output_path none st
    s rid c hparse hauth hfetch
  rw [show verify_hash c (some e) = .error (.integrityError c e) from by
      simp [verify_hash, hwrong]] at hwrongEq
  rw [show verify_hash c none = .ok () from rfl] at hnoneEq
  refine ⟨by rw [hwrongEq], ?_, by rw [hnoneEq], ?_⟩
  · rw [hwrongEq]
    show (staged st resource c).files output_path = _
    unfold staged
    rw [St.set_files_ne _ _ _ _ (permanent_ne_tmpPath hperm _)]
  · rw [hnoneEq]
    show (to_permanent_path (staged st resource c) (tmpPath st.cnt)
        output_path).files output_path = _
    unfold to_permanent_path staged
    rw [St.set_files_same, St.set_files_same]

/-- Witness for C4: a concrete download of the bytes `[7, 7]` against the
wrong expected hash `[9]` and against no expected hash. -/
theorem download_resource_hash_enforcement_witness :
    (download_resource [srcEcho] "u" [PathC.str "out"] (some [9]) stEmpty).1
        = .error (.integrityError [7, 7] [9])
    ∧ (download_resource [srcEcho] "u" [PathC.str "out"] (some [9]) stEmpty).2.files
        [PathC.str "out"] = stEmpty.files [PathC.str "out"]
    ∧ (download_resource [srcEcho] "u" [PathC.str "out"] none stEmpty).1 = .ok [7, 7]
    ∧ (download_resource [srcEcho] "u" [PathC.str "out"] none stEmpty).2.files
        [PathC.str "out"] = some (.file [7, 7]) :=
  download_resource_hash_enforcement [srcEcho] "u" [PathC.str "out"] srcEcho "u"
    [7, 7] [9] stEmpty rfl rfl rfl
    (by intro k; simp [tmpPath]) (by decide)

/-- **C8**: resource parsing scans the registered sources in registration
order and returns the first source whose recognizer accepts (returns a
truthy identifier for) the descriptor, together with that identifier; when
no registered source accepts, it fails with `InvalidArgumentError`, and a
download attempt for such a descriptor performs no network access. -/
theorem parse_resource_first_accepting_source (sources : List Source)
    (resource : String) :
    (∀ s rid, parse_resource sources resource = .ok (s, rid) →
      ∃ i : Fin sources.length, sources.get i = s
        ∧ s.validate_resource resource = some rid ∧ rid ≠ ""
        ∧ ∀ j : Fin sources.length, (j : Nat) < (i : Nat)
            → ¬ accepts (sources.get j) resource)
    ∧ ((∀ s ∈ sources, ¬ accepts s resource) →
      (∃ msg, parse_resource sources resource = .error (.invalidArgument msg))
      ∧ ∀ st : St, (tmp_download_resource sources resource st).2.log = st.log
          ∧ ∃ e2, (tmp_download_resource sources resource st).1 = .error e2) := by
  induction sources with
  | nil =>
    constructor
    · intro s rid hp
      simp [parse_resource] at hp
    · intro _
      refine ⟨⟨_, rfl⟩, fun st => ⟨rfl, ⟨_, rfl⟩⟩⟩
  | cons s0 rest ih =>
    have hparse_char : ∀ msg, parse_resource rest resource
          = .error (.invalidArgument msg)
        → ¬ accepts s0 resource
        → parse_resource (s0 :: rest) resource = .error (.invalidArgument msg) := by
      intro msg hmsg hns0
      unfold parse_resource
      cases hval : s0.validate_resource resource with
      | none => exact hmsg
      | some id0 =>
        have hid : id0 = "" := by
          by_contra hne
          exact hns0 ⟨id0, hval, hne⟩
        subst hid
        dsimp only
        rw [if_pos rfl]
        exact hmsg
    constructor
    · intro s rid hp
      unfold parse_resource at hp
      cases hval : s0.validate_resource resource with
      | none =>
        rw [hval] at hp
        obtain ⟨i, hget, hvr, hne, hfirst⟩ := ih.1 s rid hp
        refine ⟨i.succ, hget, hvr, hne, ?_⟩
        intro j hj
        cases j using Fin.cases with
        | zero =>
          intro ⟨rid0, hr0, _⟩
          have hr0b : s0.validate_resource resource = some rid0 := hr0
          rw [hval] at hr0b
          cases hr0b
        | succ j0 =>
          simp only [Fin.val_succ] at hj
          exact hfirst j0 (by omega)
      | some id0 =>
        rw [hval] at hp
        dsimp only at hp
        by_cases hid : id0 = ""
        · rw [if_pos hid] at hp
          subst hid
          obtain ⟨i, hget, hvr, hne, hfirst⟩ := ih.1 s rid hp
          refine ⟨i.succ, hget, hvr, hne, ?_⟩
          intro j hj
          cases j using Fin.cases with
          | zero =>
            intro ⟨rid0, hr0, hrne⟩
            have hr0b : s0.validate_resource resource = some rid0 := hr0
            rw [hval] at hr0b
            obtain rfl : "" = rid0 := by injection hr0b
            exact hrne rfl
          | succ j0 =>
            simp only [Fin.val_succ] at hj
            exact hfirst j0 (by omega)
        · rw [if_neg hid] at hp
          simp only [Except.ok.injEq, Prod.mk.injEq] at hp
          obtain ⟨rfl, rfl⟩ := hp
          refine ⟨⟨0, by simp⟩, rfl, hval, hid, ?_⟩
          intro j hj
          simp at hj
    · intro hnone
      have hns0 : ¬ accepts s0 resource := hnone s0 (List.mem_cons_self ..)
      have hrest : ∀ s ∈ rest, ¬ accepts s resource :=
        fun s hs => hnone s (List.mem_cons_of_mem _ hs)
      obtain ⟨⟨msg, hmsg⟩, _⟩ := ih.2 hrest
      have hp := hparse_char msg hmsg hns0
      refine ⟨⟨msg, hp⟩, fun st => ?_⟩
      unfold tmp_download_resource
      dsimp only
      rw [hp]
      exact ⟨rfl, ⟨_, rfl⟩⟩

/-- Witness for C8: with a rejecting source followed by an accepting one,
parsing returns the second source first-match; with only the rejecting
source, parsing fails and no network access happens. -/
theorem parse_resource_first_accepting_source_witness :
    (∃ i : Fin ([srcReject, srcEcho] : List Source).length,
      [srcReject, srcEcho].get i = srcEcho
        ∧ srcEcho.validate_resource "u" = some "u" ∧ "u" ≠ ""
        ∧ ∀ j : Fin ([srcReject, srcEcho] : List Source).length,
            (j : Nat) < (i : Nat) → ¬ accepts ([srcReject, srcEcho].get j) "u")
    ∧ (∃ msg, parse_resource [srcReject] "u" = .error (.invalidArgument msg))
    ∧ (tmp_download_resource [srcReject] "u" stEmpty).2.log = stEmpty.log
    ∧ ∃ e2, (tmp_download_resource [srcReject] "u" stEmpty).1 = .error e2 := by
  have h1 := (parse_resource_first_accepting_source [srcReject, srcEcho] "u").1
    srcEcho "u" rfl
  have h2 := (parse_resource_first_accepting_source [srcReject] "u").2
    (by
      intro s hs
      simp only [List.mem_singleton] at hs
      subst hs
      rintro ⟨rid, hr, _⟩
      simp [srcReject] at hr)
  exact ⟨h1, h2.1, (h2.2 stEmpty).1, (h2.2 stEmpty).2⟩

/-- **C2**: for every cache operation and every execution outcome, every
path under permanent storage is afterwards either unchanged, fully absent,
or holds an object verified against the governing hash of the call (the
expected hash when one was supplied — the returned digest equals it — and
the returned digest otherwise): downloads land in temporary paths, are
verified there, and only verified content is renamed into permanent
storage. -/
theorem cache_ops_permanent_paths_verified :
    (∀ (sources : List Source) (url : String) (cube_path : FsPath)
        (expected : Option Hash) (st : St),
      match get_cube sources url cube_path expected st with
      | (.ok phv, st2) =>
          (∀ p, permanentPath p → st2.files p = st.files p ∨ st2.files p = none
            ∨ ∃ obj, st2.files p = some obj ∧ obj.hashOf = phv.2)
          ∧ expected.getD phv.2 = phv.2
      | (.error _, st2) =>
          ∀ p, permanentPath p → st2.files p = st.files p ∨ st2.files p = none)
    ∧ (∀ (sources : List Source) (url : String) (cube_path : FsPath)
        (expected : Option Hash) (st : St),
      match get_cube_params sources url cube_path expected st with
      | (.ok phv, st2) =>
          (∀ p, permanentPath p → st2.files p = st.files p ∨ st2.files p = none
            ∨ ∃ obj, st2.files p = some obj ∧ obj.hashOf = phv.2)
          ∧ expected.getD phv.2 = phv.2
      | (.error _, st2) =>
          ∀ p, permanentPath p → st2.files p = st.files p ∨ st2.files p = none)
    ∧ (∀ (sources : List Source) (url : String) (cube_path : FsPath)
        (image_name : String) (hash_value : Option Hash) (st : St),
      match get_cube_image sources url cube_path image_name hash_value st with
      | (.ok phv, st2) =>
          (∀ p, permanentPath p → st2.files p = st.files p ∨ st2.files p = none
            ∨ ∃ obj, st2.files p = some obj ∧ obj.hashOf = phv.2)
          ∧ hash_value.getD phv.2 = phv.2
      | (.error _, st2) =>
          ∀ p, permanentPath p → st2.files p = st.files p ∨ st2.files p = none)
    ∧ (∀ (sources : List Source) (url : String) (cube_path : FsPath)
        (expected : Option Hash) (st : St),
      match get_cube_additional sources url cube_path expected st with
      | (.ok hv, st2) =>
          (∀ p, permanentPath p → st2.files p = st.files p ∨ st2.files p = none
            ∨ ∃ obj, st2.files p = some obj ∧ obj.hashOf = hv)
          ∧ expected.getD hv = hv
      | (.error _, st2) =>
          ∀ p, permanentPath p → st2.files p = st.files p ∨ st2.files p = none)
    ∧ (∀ (sources : List Source) (url : String) (expected : Option Hash) (st : St),
      match get_benchmark_demo_dataset sources url expected st with
      | (.ok phv, st2) =>
          (∀ p, permanentPath p → st2.files p = st.files p ∨ st2.files p = none
            ∨ ∃ obj, st2.files p = some obj ∧ obj.hashOf = phv.2)
          ∧ expected.getD phv.2 = phv.2
      | (.error _, st2) =>
          ∀ p, permanentPath p → st2.files p = st.files p ∨ st2.files p = none) := by
  refine ⟨?_, ?_, ?_, ?_, ?_⟩
  · intro sources url cube_path expected st
    rcases hres : get_cube sources url cube_path expected st with ⟨r, st2⟩
    cases r with
    | ok phv =>
      obtain ⟨pp, hh⟩ := phv
      obtain ⟨_, ⟨obj, hobj, hhash⟩, hgetd, _, hframe⟩ :=
        get_cube_ok _ _ _ _ _ _ _ _ hres
      refine ⟨?_, hgetd⟩
      intro p hperm
      by_cases hpe : p = cubeManifestPath cube_path
      · subst hpe
        exact Or.inr (Or.inr ⟨obj, hobj, hhash⟩)
      · exact Or.inl (hframe p hperm hpe)
    | error e =>
      obtain ⟨hout, _, hframe⟩ := get_cube_err _ _ _ _ _ _ _ hres
      intro p hperm
      by_cases hpe : p = cubeManifestPath cube_path
      · subst hpe
        cases hout with
        | inl h1 => exact Or.inl h1
        | inr h1 => exact Or.inr h1
      · exact Or.inl (hframe p hperm hpe)
  · intro sources url cube_path expected st
    rcases hres : get_cube_params sources url cube_path expected st with ⟨r, st2⟩
    cases r with
    | ok phv =>
      obtain ⟨pp, hh⟩ := phv
      obtain ⟨_, ⟨obj, hobj, hhash⟩, hgetd, _, hframe⟩ :=
        get_cube_params_ok _ _ _ _ _ _ _ _ hres
      refine ⟨?_, hgetd⟩
      intro p hperm
      by_cases hpe : p = cubeParamsPath cube_path
      · subst hpe
        exact Or.inr (Or.inr ⟨obj, hobj, hhash⟩)
      · exact Or.inl (hframe p hperm hpe)
    | error e =>
      obtain ⟨hout, _, hframe⟩ := get_cube_params_err _ _ _ _ _ _ _ hres
      intro p hperm
      by_cases hpe : p = cubeParamsPath cube_path
      · subst hpe
        cases hout with
        | inl h1 => exact Or.inl h1
        | inr h1 => exact Or.inr h1
      · exact Or.inl (hframe p hperm hpe)
  · intro sources url cube_path image_name hash_value st
    rcases hres : get_cube_image sources url cube_path image_name hash_value st
      with ⟨r, st2⟩
    cases r with
    | ok phv =>
      obtain ⟨pp, hh⟩ := phv
      obtain ⟨_, hgetd, _, hframe, himg, _, _⟩ :=
        get_cube_image_ok _ _ _ _ _ _ _ _ _ hres
      refine ⟨?_, hgetd⟩
      intro p hperm
      by_cases hpe : p = imageStoragePath hh
      · subst hpe
        cases himg with
        | inl h1 => exact Or.inl h1
        | inr h1 => exact Or.inr (Or.inr ⟨.file hh, h1, rfl⟩)
      · exact Or.inl (hframe p hperm hpe)
    | error e =>
      obtain ⟨_, hframe⟩ := get_cube_image_err _ _ _ _ _ _ _ _ hres
      intro p hperm
      exact Or.inl (hframe p hperm)
  · intro sources url cube_path expected st
    rcases hres : get_cube_additional sources url cube_path expected st with ⟨r, st2⟩
    cases r with
    | ok hv =>
      obtain ⟨hgetd, _, hframe, hfolder, _, hmeta, _⟩ :=
        get_cube_additional_ok _ _ _ _ _ _ _ hres
      refine ⟨?_, hgetd⟩
      intro p hperm
      by_cases hpf : p = additionalFilesFolder cube_path
      · subst hpf
        cases hfolder with
        | inl h1 => exact Or.inl h1
        | inr h1 => exact Or.inr (Or.inr ⟨.dir hv, h1, rfl⟩)
      · by_cases hpc : p = mlcubeCachePath cube_path
        · subst hpc
          exact Or.inr (Or.inr ⟨.meta hv, hmeta, rfl⟩)
        · exact Or.inl (hframe p hperm hpf hpc)
    | error e =>
      obtain ⟨_, hframe⟩ := get_cube_additional_err _ _ _ _ _ _ _ hres
      intro p hperm
      exact Or.inl (hframe p hperm)
  · intro sources url expected st
    rcases hres : get_benchmark_demo_dataset sources url expected st with ⟨r, st2⟩
    cases r with
    | ok phv =>
      obtain ⟨pp, hh⟩ := phv
      obtain ⟨_, hgetd, _, hfolder, _, hframe, _⟩ :=
        get_benchmark_demo_dataset_ok _ _ _ _ _ _ _ hres
      refine ⟨?_, hgetd⟩
      intro p hperm
      by_cases hpe : p = demoDatasetFolder hh
      · subst hpe
        cases hfolder with
        | inl h1 => exact Or.inl h1
        | inr h1 => exact Or.inr (Or.inr ⟨.dir hh, h1, rfl⟩)
      · exact Or.inl (hframe p hperm hpe)
    | error e =>
      obtain ⟨_, hframe⟩ := get_benchmark_demo_dataset_err _ _ _ _ _ _ hres
      intro p hperm
      exact Or.inl (hframe p hperm)

/-- **C3**: calling any cache operation twice with the same descriptor and
the same supplied expected hash performs at most one network fetch — when
the first call succeeds, the second call returns the same result and leaves
the state (in particular the network log) unchanged; and whenever a
permanent object already exists under the supplied expected hash, the call
returns with no network access at all. -/
theorem cache_ops_idempotent_with_expected_hash :
    (∀ (sources : List Source) (url : String) (cube_path : FsPath) (e : Hash)
        (st : St) (p1 : FsPath) (hv1 : Hash) (st2 : St),
      get_cube sources url cube_path (some e) st = (.ok (p1, hv1), st2) →
        (st2.log = st.log ∨ st2.log = url :: st.log)
        ∧ get_cube sources url cube_path (some e) st2 = (.ok (p1, hv1), st2))
    ∧ (∀ (sources : List Source) (url : String) (cube_path : FsPath) (e : Hash)
        (st : St) (obj : Obj),
      st.files (cubeManifestPath cube_path) = some obj → obj.hashOf = e →
        get_cube sources url cube_path (some e) st
          = (.ok (cubeManifestPath cube_path, e), st))
    ∧ (∀ (sources : List Source) (url : String) (cube_path : FsPath) (e : Hash)
        (st : St) (p1 : FsPath) (hv1 : Hash) (st2 : St),
      get_cube_params sources url cube_path (some e) st = (.ok (p1, hv1), st2) →
        (st2.log = st.log ∨ st2.log = url :: st.log)
        ∧ get_cube_params sources url cube_path (some e) st2 = (.ok (p1, hv1), st2))
    ∧ (∀ (sources : List Source) (url : String) (cube_path : FsPath) (e : Hash)
        (st : St) (obj : Obj),
      st.files (cubeParamsPath cube_path) = some obj → obj.hashOf = e →
        get_cube_params sources url cube_path (some e) st
          = (.ok (cubeParamsPath cube_path, e), st))
    ∧ (∀ (sources : List Source) (url : String) (cube_path : FsPath)
        (image_name : String) (e : Hash) (st : St) (p1 : FsPath) (hv1 : Hash) (st2 : St),
      get_cube_image sources url cube_path image_name (some e) st
          = (.ok (p1, hv1), st2) →
        (st2.log = st.log ∨ st2.log = url :: st.log)
        ∧ (get_cube_image sources url cube_path image_name (some e) st2).1
            = .ok (p1, hv1)
        ∧ (get_cube_image sources url cube_path image_name (some e) st2).2.files
            = st2.files
        ∧ (get_cube_image sources url cube_path image_name (some e) st2).2.log
            = st2.log)
    ∧ (∀ (sources : List Source) (url : String) (cube_path : FsPath)
        (image_name : String) (e : Hash) (st : St),
      (st.files (imageStoragePath e)).isSome →
        (get_cube_image sources url cube_path image_name (some e) st).1
            = .ok (imageCubeFile cube_path image_name, e)
        ∧ (get_cube_image sources url cube_path image_name (some e) st).2.files
            = st.files
        ∧ (get_cube_image sources url cube_path image_name (some e) st).2.log
            = st.log)
    ∧ (∀ (sources : List Source) (url : String) (cube_path : FsPath) (e : Hash)
        (st : St) (hv1 : Hash) (st2 : St),
      get_cube_additional sources url cube_path (some e) st = (.ok hv1, st2) →
        (st2.log = st.log ∨ st2.log = url :: st.log)
        ∧ get_cube_additional sources url cube_path (some e) st2 = (.ok hv1, st2))
    ∧ (∀ (sources : List Source) (url : String) (cube_path : FsPath) (e : Hash)
        (st : St),
      (st.files (additionalFilesFolder cube_path)).isSome →
      st.files (mlcubeCachePath cube_path) = some (.meta e) →
        get_cube_additional sources url cube_path (some e) st = (.ok e, st))
    ∧ (∀ (sources : List Source) (url : String) (e : Hash) (st : St)
        (p1 : FsPath) (hv1 : Hash) (st2 : St),
      get_benchmark_demo_dataset sources url (some e) st = (.ok (p1, hv1), st2) →
        (st2.log = st.log ∨ st2.log = url :: st.log)
        ∧ get_benchmark_demo_dataset sources url (some e) st2 = (.ok (p1, hv1), st2))
    ∧ (∀ (sources : List Source) (url : String) (e : Hash) (st : St),
      (st.files (demoDatasetFolder e)).isSome →
        get_benchmark_demo_dataset sources url (some e) st
          = (.ok (demoDatasetFolder e, e), st)) := by
  refine ⟨?_, get_cube_cached, ?_, get_cube_params_cached, ?_, ?_, ?_, ?_, ?_,
    get_benchmark_demo_dataset_cached⟩
  · intro sources url cube_path e st p1 hv1 st2 h
    obtain ⟨hp1, ⟨obj, hobj, hhash⟩, hgetd, hlog, _⟩ := get_cube_ok _ _ _ _ _ _ _ _ h
    simp only [Option.getD_some] at hgetd
    subst hgetd
    subst hp1
    exact ⟨hlog, get_cube_cached sources url cube_path _ st2 obj hobj hhash⟩
  · intro sources url cube_path e st p1 hv1 st2 h
    obtain ⟨hp1, ⟨obj, hobj, hhash⟩, hgetd, hlog, _⟩ :=
      get_cube_params_ok _ _ _ _ _ _ _ _ h
    simp only [Option.getD_some] at hgetd
    subst hgetd
    subst hp1
    exact ⟨hlog, get_cube_params_cached sources url cube_path _ st2 obj hobj hhash⟩
  · intro sources url cube_path image_name e st p1 hv1 st2 h
    obtain ⟨hp1, hgetd, hlog, _, _, hsome, _⟩ := get_cube_image_ok _ _ _ _ _ _ _ _ _ h
    simp only [Option.getD_some] at hgetd
    subst hgetd
    subst hp1
    obtain ⟨h1, h2, h3⟩ := get_cube_image_cached sources url cube_path image_name _ st2 hsome
    exact ⟨hlog, h1, h2, h3⟩
  · intro sources url cube_path image_name e st hsome
    exact get_cube_image_cached sources url cube_path image_name e st hsome
  · intro sources url cube_path e st hv1 st2 h
    obtain ⟨hgetd, hlog, _, _, hsomef, hmeta, _⟩ :=
      get_cube_additional_ok _ _ _ _ _ _ _ h
    simp only [Option.getD_some] at hgetd
    subst hgetd
    exact ⟨hlog, get_cube_additional_cached sources url cube_path _ st2 hsomef hmeta⟩
  · intro sources url cube_path e st hsomef hmeta
    exact get_cube_additional_cached sources url cube_path e st hsomef hmeta
  · intro sources url e st p1 hv1 st2 h
    obtain ⟨hp1, hgetd, hlog, _, hsome, _, _⟩ :=
      get_benchmark_demo_dataset_ok _ _ _ _ _ _ _ h
    simp only [Option.getD_some] at hgetd
    subst hgetd
    subst hp1
    exact ⟨hlog, get_benchmark_demo_dataset_cached sources url _ st2 hsome⟩

/-- Witness for C2: a concrete successful `get_cube` call, inspected at its
own permanent output path. -/
theorem cache_ops_permanent_paths_verified_witness :
    (get_cube [srcEcho] "u" [] (some [7, 7]) stEmpty).2.files (cubeManifestPath [])
        = stEmpty.files (cubeManifestPath [])
    ∨ (get_cube [srcEcho] "u" [] (some [7, 7]) stEmpty).2.files (cubeManifestPath [])
        = none
    ∨ ∃ obj, (get_cube [srcEcho] "u" [] (some [7, 7]) stEmpty).2.files
          (cubeManifestPath []) = some obj ∧ obj.hashOf = [7, 7] := by
  have h := cache_ops_permanent_paths_verified.1 [srcEcho] "u" [] (some [7, 7]) stEmpty
  rw [show get_cube [srcEcho] "u" [] (some [7, 7]) stEmpty
      = (.ok (cubeManifestPath [], [7, 7]),
          (get_cube [srcEcho] "u" [] (some [7, 7]) stEmpty).2) from rfl] at h
  exact h.1 (cubeManifestPath []) (by intro k; simp [cubeManifestPath, tmpPath])

/-- Witness for C3: concrete first calls with a supplied expected hash, and
concrete cache hits against a populated store. -/
theorem cache_ops_idempotent_with_expected_hash_witness :
    (((get_cube [srcEcho] "u" [] (some [7, 7]) stEmpty).2.log = stEmpty.log
        ∨ (get_cube [srcEcho] "u" [] (some [7, 7]) stEmpty).2.log
            = "u" :: stEmpty.log)
      ∧ get_cube [srcEcho] "u" [] (some [7, 7])
            ((get_cube [srcEcho] "u" [] (some [7, 7]) stEmpty).2)
          = (.ok (cubeManifestPath [], [7, 7]),
              (get_cube [srcEcho] "u" [] (some [7, 7]) stEmpty).2))
    ∧ get_cube [srcEcho] "u" [] (some [9]) stFull
        = (.ok (cubeManifestPath [], [9]), stFull)
    ∧ (((get_cube_params [srcEcho] "u" [] (some [7, 7]) stEmpty).2.log = stEmpty.log
        ∨ (get_cube_params [srcEcho] "u" [] (some [7, 7]) stEmpty).2.log
            = "u" :: stEmpty.log)
      ∧ get_cube_params [srcEcho] "u" [] (some [7, 7])
            ((get_cube_params [srcEcho] "u" [] (some [7, 7]) stEmpty).2)
          = (.ok (cubeParamsPath [], [7, 7]),
              (get_cube_params [srcEcho] "u" [] (some [7, 7]) stEmpty).2))
    ∧ get_cube_params [srcEcho] "u" [] (some [9]) stFull
        = (.ok (cubeParamsPath [], [9]), stFull)
    ∧ (get_cube_image [srcEcho] "u" [] "img" (some [7, 7])
          ((get_cube_image [srcEcho] "u" [] "img" (some [7, 7]) stEmpty).2)).1
        = .ok (imageCubeFile [] "img", [7, 7])
    ∧ (get_cube_image [srcEcho] "u" [] "img" (some [9]) stFull).1
        = .ok (imageCubeFile [] "img", [9])
    ∧ get_cube_additional [srcEcho] "u" [] (some [7, 7])
          ((get_cube_additional [srcEcho] "u" [] (some [7, 7]) stEmpty).2)
        = (.ok [7, 7], (get_cube_additional [srcEcho] "u" [] (some [7, 7]) stEmpty).2)
    ∧ get_cube_additional [srcEcho] "u" [] (some [9]) stFull = (.ok [9], stFull)
    ∧ get_benchmark_demo_dataset [srcEcho] "u" (some [7, 7])
          ((get_benchmark_demo_dataset [srcEcho] "u" (some [7, 7]) stEmpty).2)
        = (.ok (demoDatasetFolder [7, 7], [7, 7]),
            (get_benchmark_demo_dataset [srcEcho] "u" (some [7, 7]) stEmpty).2)
    ∧ get_benchmark_demo_dataset [srcEcho] "u" (some [9]) stFull
        = (.ok (demoDatasetFolder [9], [9]), stFull) := by
  obtain ⟨t1, t2, t3, t4, t5, t6, t7, t8, t9, t10⟩ :=
    cache_ops_idempotent_with_expected_hash
  refine ⟨t1 [srcEcho] "u" [] [7, 7] stEmpty _ _ _ rfl,
    t2 [srcEcho] "u" [] [9] stFull (.file [9]) (by decide) (by decide),
    t3 [srcEcho] "u" [] [7, 7] stEmpty _ _ _ rfl,
    t4 [srcEcho] "u" [] [9] stFull (.file [9]) (by decide) (by decide),
    (t5 [srcEcho] "u" [] "img" [7, 7] stEmpty _ _ _ rfl).2.1,
    (t6 [srcEcho] "u" [] "img" [9] stFull (by decide)).1,
    (t7 [srcEcho] "u" [] [7, 7] stEmpty _ _ rfl).2,
    t8 [srcEcho] "u" [] [9] stFull (by decide) (by decide),
    (t9 [srcEcho] "u" [7, 7] stEmpty _ _ _ rfl).2,
    t10 [srcEcho] "u" [9] stFull (by decide)⟩

/-- **C5**: a cache operation called without an expected hash stores the
downloaded object under the returned digest — the digest of the downloaded
bytes — and immediately repeating the operation with that digest as the
expected hash is a pure cache hit: same result, no state change and no
network access. -/
theorem cache_ops_no_hash_roundtrip :
    (∀ (sources : List Source) (url : String) (cube_path : FsPath) (st : St)
        (p1 : FsPath) (hv1 : Hash) (st2 : St),
      get_cube sources url cube_path none st = (.ok (p1, hv1), st2) →
        st2.files p1 = some (.file hv1)
        ∧ get_cube sources url cube_path (some hv1) st2 = (.ok (p1, hv1), st2))
    ∧ (∀ (sources : List Source) (url : String) (cube_path : FsPath) (st : St)
        (p1 : FsPath) (hv1 : Hash) (st2 : St),
      get_cube_params sources url cube_path none st = (.ok (p1, hv1), st2) →
        st2.files p1 = some (.file hv1)
        ∧ get_cube_params sources url cube_path (some hv1) st2 = (.ok (p1, hv1), st2))
    ∧ (∀ (sources : List Source) (url : String) (cube_path : FsPath)
        (image_name : String) (st : St) (p1 : FsPath) (hv1 : Hash) (st2 : St),
      get_cube_image sources url cube_path image_name none st = (.ok (p1, hv1), st2) →
        st2.files (imageStoragePath hv1) = some (.file hv1)
        ∧ (get_cube_image sources url cube_path image_name (some hv1) st2).1
            = .ok (p1, hv1)
        ∧ (get_cube_image sources url cube_path image_name (some hv1) st2).2.files
            = st2.files
        ∧ (get_cube_image sources url cube_path image_name (some hv1) st2).2.log
            = st2.log)
    ∧ (∀ (sources : List Source) (url : String) (cube_path : FsPath) (st : St)
        (hv1 : Hash) (st2 : St),
      get_cube_additional sources url cube_path none st = (.ok hv1, st2) →
        st2.files (additionalFilesFolder cube_path) = some (.dir hv1)
        ∧ get_cube_additional sources url cube_path (some hv1) st2 = (.ok hv1, st2))
    ∧ (∀ (sources : List Source) (url : String) (st : St)
        (p1 : FsPath) (hv1 : Hash) (st2 : St),
      get_benchmark_demo_dataset sources url none st = (.ok (p1, hv1), st2) →
        st2.files p1 = some (.dir hv1)
        ∧ get_benchmark_demo_dataset sources url (some hv1) st2
            = (.ok (p1, hv1), st2)) := by
  refine ⟨?_, ?_, ?_, ?_, ?_⟩
  · intro sources url cube_path st p1 hv1 st2 h
    obtain ⟨hp1, _, _, _, _⟩ := get_cube_ok _ _ _ _ _ _ _ _ h
    subst hp1
    have hfile := get_cube_none_ok _ _ _ _ _ _ _ h
    exact ⟨hfile, get_cube_cached sources url cube_path hv1 st2 _ hfile rfl⟩
  · intro sources url cube_path st p1 hv1 st2 h
    obtain ⟨hp1, _, _, _, _⟩ := get_cube_params_ok _ _ _ _ _ _ _ _ h
    subst hp1
    have hfile := get_cube_params_none_ok _ _ _ _ _ _ _ h
    exact ⟨hfile, get_cube_params_cached sources url cube_path hv1 st2 _ hfile rfl⟩
  · intro sources url cube_path image_name st p1 hv1 st2 h
    obtain ⟨hp1, _, _, _, _, hsome, hnone⟩ := get_cube_image_ok _ _ _ _ _ _ _ _ _ h
    subst hp1
    obtain ⟨h1, h2, h3⟩ :=
      get_cube_image_cached sources url cube_path image_name hv1 st2 hsome
    exact ⟨hnone rfl, h1, h2, h3⟩
  · intro sources url cube_path st hv1 st2 h
    obtain ⟨_, _, _, _, hsomef, hmeta, hnone⟩ := get_cube_additional_ok _ _ _ _ _ _ _ h
    exact ⟨hnone rfl,
      get_cube_additional_cached sources url cube_path hv1 st2 hsomef hmeta⟩
  · intro sources url st p1 hv1 st2 h
    obtain ⟨hp1, _, _, _, hsome, _, hnone⟩ :=
      get_benchmark_demo_dataset_ok _ _ _ _ _ _ _ h
    subst hp1
    exact ⟨hnone rfl, get_benchmark_demo_dataset_cached sources url hv1 st2 hsome⟩

/-- Witness for C5: concrete no-hash downloads followed by hash-supplied
cache hits. -/
theorem cache_ops_no_hash_roundtrip_witness :
    ((get_cube [srcEcho] "u" [] none stEmpty).2.files (cubeManifestPath [])
        = some (.file [7, 7])
      ∧ get_cube [srcEcho] "u" [] (some [7, 7])
            ((get_cube [srcEcho] "u" [] none stEmpty).2)
          = (.ok (cubeManifestPath [], [7, 7]),
              (get_cube [srcEcho] "u" [] none stEmpty).2))
    ∧ ((get_cube_params [srcEcho] "u" [] none stEmpty).2.files (cubeParamsPath [])
        = some (.file [7, 7])
      ∧ get_cube_params [srcEcho] "u" [] (some [7, 7])
            ((get_cube_params [srcEcho] "u" [] none stEmpty).2)
          = (.ok (cubeParamsPath [], [7, 7]),
              (get_cube_params [srcEcho] "u" [] none stEmpty).2))
    ∧ ((get_cube_image [srcEcho] "u" [] "img" none stEmpty).2.files
          (imageStoragePath [7, 7]) = some (.file [7, 7])
      ∧ (get_cube_image [srcEcho] "u" [] "img" (some [7, 7])
            ((get_cube_image [srcEcho] "u" [] "img" none stEmpty).2)).1
          = .ok (imageCubeFile [] "img", [7, 7]))
    ∧ ((get_cube_additional [srcEcho] "u" [] none stEmpty).2.files
          (additionalFilesFolder []) = some (.dir [7, 7])
      ∧ get_cube_additional [srcEcho] "u" [] (some [7, 7])
            ((get_cube_additional [srcEcho] "u" [] none stEmpty).2)
          = (.ok [7, 7], (get_cube_additional [srcEcho] "u" [] none stEmpty).2))
    ∧ ((get_benchmark_demo_dataset [srcEcho] "u" none stEmpty).2.files
          (demoDatasetFolder [7, 7]) = some (.dir [7, 7])
      ∧ get_benchmark_demo_dataset [srcEcho] "u" (some [7, 7])
            ((get_benchmark_demo_dataset [srcEcho] "u" none stEmpty).2)
          = (.ok (demoDatasetFolder [7, 7], [7, 7]),
              (get_benchmark_demo_dataset [srcEcho] "u" none stEmpty).2)) := by
  obtain ⟨t1, t2, t3, t4, t5⟩ := cache_ops_no_hash_roundtrip
  have h1 := t1 [srcEcho] "u" [] stEmpty _ _ _ rfl
  have h2 := t2 [srcEcho] "u" [] stEmpty _ _ _ rfl
  have h3 := t3 [srcEcho] "u" [] "img" stEmpty _ _ _ rfl
  have h4 := t4 [srcEcho] "u" [] stEmpty _ _ rfl
  have h5 := t5 [srcEcho] "u" stEmpty _ _ _ rfl
  exact ⟨⟨h1.1, h1.2⟩, ⟨h2.1, h2.2⟩, ⟨h3.1, h3.2.1⟩, ⟨h4.1, h4.2⟩, ⟨h5.1, h5.2⟩⟩

/-- **C9**: when `get_cube` / `get_cube_params` decides to re-download while
a file already exists at the output path, the existing file is removed
before any network access begins — the run is literally the download
performed on the state with the cached file already removed — and hence a
subsequent download or verification failure leaves the output path absent
rather than preserving the previously cached file. -/
theorem get_cube_redownload_removes_before_network :
    (∀ (sources : List Source) (url : String) (cube_path : FsPath)
        (expected : Option Hash) (st : St),
      (st.files (cubeManifestPath cube_path)).isSome →
      _should_get_cube st (cubeManifestPath cube_path) expected = .ok true →
        (get_cube sources url cube_path expected st
          = (match download_resource sources url (cubeManifestPath cube_path) expected
              (remove_path st (cubeManifestPath cube_path)) with
             | (.error e, st2) => (.error e, st2)
             | (.ok hv, st2) => (.ok (cubeManifestPath cube_path, hv), st2))
        ∧ ∀ e2 st2, get_cube sources url cube_path expected st = (.error e2, st2)
            → st2.files (cubeManifestPath cube_path) = none))
    ∧ (∀ (sources : List Source) (url : String) (cube_path : FsPath)
        (expected : Option Hash) (st : St),
      (st.files (cubeParamsPath cube_path)).isSome →
      _should_get_cube st (cubeParamsPath cube_path) expected = .ok true →
        (get_cube_params sources url cube_path expected st
          = (match download_resource sources url (cubeParamsPath cube_path) expected
              (remove_path st (cubeParamsPath cube_path)) with
             | (.error e, st2) => (.error e, st2)
             | (.ok hv, st2) => (.ok (cubeParamsPath cube_path, hv), st2))
        ∧ ∀ e2 st2, get_cube_params sources url cube_path expected st = (.error e2, st2)
            → st2.files (cubeParamsPath cube_path) = none)) := by
  constructor
  · intro sources url cube_path expected st hsome hshould
    constructor
    · unfold get_cube
      dsimp only
      rw [hshould]
      dsimp only
      rw [if_pos hsome]
    · intro e2 st2 herr
      unfold get_cube at herr
      dsimp only at herr
      rw [hshould] at herr
      dsimp only at herr
      rw [if_pos hsome] at herr
      split at herr
      · next e3 dst hd =>
          simp only [Prod.mk.injEq, Except.error.injEq] at herr
          obtain ⟨rfl, rfl⟩ := herr
          obtain ⟨_, _, _, _, herrc⟩ := download_resource_spec _ _ _ _ _ _ _ hd
          rw [herrc _ rfl (cubeManifestPath_ne_tmpPath cube_path _)]
          exact St.set_files_same ..
      · next hv dst hd => simp at herr
  · intro sources url cube_path expected st hsome hshould
    constructor
    · unfold get_cube_params _should_get_cube_params
      dsimp only
      rw [hshould]
      dsimp only
      rw [if_pos hsome]
    · intro e2 st2 herr
      unfold get_cube_params _should_get_cube_params at herr
      dsimp only at herr
      rw [hshould] at herr
      dsimp only at herr
      rw [if_pos hsome] at herr
      split at herr
      · next e3 dst hd =>
          simp only [Prod.mk.injEq, Except.error.injEq] at herr
          obtain ⟨rfl, rfl⟩ := herr
          obtain ⟨_, _, _, _, herrc⟩ := download_resource_spec _ _ _ _ _ _ _ hd
          rw [herrc _ rfl (cubeParamsPath_ne_tmpPath cube_path _)]
          exact St.set_files_same ..
      · next hv dst hd => simp at herr

/-- Witness for C9: a stale cached file, re-downloaded through a failing
source, ends up absent. -/
theorem get_cube_redownload_removes_before_network_witness :
    (stStale.files (cubeManifestPath [])).isSome
    ∧ (get_cube [srcFail] "u" [] none stStale).2.files (cubeManifestPath []) = none
    ∧ (get_cube_params [srcFail] "u" [] none stStale).2.files (cubeParamsPath [])
        = none := by
  have h1 := (get_cube_redownload_removes_before_network.1 [srcFail] "u" [] none
    stStale (by decide) rfl).2
  have h2 := (get_cube_redownload_removes_before_network.2 [srcFail] "u" [] none
    stStale (by decide) rfl).2
  exact ⟨by decide, h1 MErr.commRetrievalError _ rfl, h2 MErr.commRetrievalError _ rfl⟩

end Medperf
